import Mathlib

/-! # openapipp: the OpenAPI 2.0 document model and schema synthesis

A shallow embedding of `include/openapi2.hpp` and `src/openapi2.cpp`:
the HTTP verb utilities, the primitive type table, the tolerant views over a
parsed JSON tree, the reference resolver and the recursive declaration
printer `Property::Print`.

Strings are Lean strings; an output stream is the text appended to it so far.
The JSON tree is the `simdjson` DOM: an object is its list of fields in
document order, duplicates included.
-/

namespace openapi

/-! ## Enumerations and constants -/

/-- The `enum class RequestMethod` of `openapi2.hpp`. -/
inductive RequestMethod where
  | POST | PUT | GET | DELETE | PATCH
  | HEAD | CONNECT | OPTIONS | TRACE
  | UNKNOWN
  deriving DecidableEq

/-- The `enum class JsonType` of `openapi2.hpp`. -/
inductive JsonType where
  | Object | Array | Primitive | Reference
  deriving DecidableEq

/-- The constant `def_refstr` of `openapi2.cpp`. -/
def def_refstr : String := "#/definitions/"

/-! ## String helpers (`std::string_view` members used by the code) -/

/-- `std::string_view::starts_with`. -/
def starts_with (s p : String) : Bool := p.data.isPrefixOf s.data

/-- `std::string_view::remove_prefix(n)`, called by the code only after
`starts_with` succeeded on a prefix of length `n`. -/
def remove_prefix (s : String) (n : Nat) : String := ⟨s.data.drop n⟩

/-- `std::string::push_back`. -/
def push_back (s : String) (c : Char) : String := ⟨s.data ++ [c]⟩

/-- `std::string::pop_back`. -/
def pop_back (s : String) : String := ⟨s.data.dropLast⟩

/-- ASCII upper-casing of a token, letter by letter. -/
def upper (s : String) : String := ⟨s.data.map Char.toUpper⟩

/-- Two tokens are equal up to (ASCII) letter case. -/
def equal_up_to_case (l r : String) : Bool :=
  l.data.map Char.toLower == r.data.map Char.toLower

/-! ## Method utilities -/

/-- `RequestMethodFromString` of `openapi2.cpp`, lines 10-21. -/
def RequestMethodFromString (key : String) : RequestMethod :=
  if key = "post" ∨ key = "POST" then RequestMethod.POST
  else if key = "put" ∨ key = "PUT" then RequestMethod.PUT
  else if key = "get" ∨ key = "GET" then RequestMethod.GET
  else if key = "delete" ∨ key = "DELETE" then RequestMethod.DELETE
  else if key = "patch" ∨ key = "PATCH" then RequestMethod.PATCH
  else if key = "head" ∨ key = "HEAD" then RequestMethod.HEAD
  else if key = "connect" ∨ key = "CONNECT" then RequestMethod.CONNECT
  else if key = "options" ∨ key = "OPTIONS" then RequestMethod.OPTIONS
  else if key = "trace" ∨ key = "TRACE" then RequestMethod.TRACE
  else RequestMethod.UNKNOWN

/-- `RequestMethodToString` of `openapi2.cpp`, lines 23-37. -/
def RequestMethodToString (rm : RequestMethod) : String :=
  match rm with
  | RequestMethod.CONNECT => "connect"
  | RequestMethod.DELETE => "delete"
  | RequestMethod.GET => "get"
  | RequestMethod.HEAD => "head"
  | RequestMethod.OPTIONS => "options"
  | RequestMethod.PATCH => "patch"
  | RequestMethod.POST => "post"
  | RequestMethod.PUT => "put"
  | RequestMethod.TRACE => "trace"
  | _ => "unknown"

/-- `JsonTypeToCppType` of `openapi2.cpp`, lines 40-60. The declaration in
the header gives `format` the default value `""`. -/
def JsonTypeToCppType (type : String) (format : String := "") : String :=
  if type = "string" then "std::string"
  else if type = "number" then
    if format = "double" then "double" else "float"
  else if type = "boolean" then "bool"
  else if type = "integer" then
    if format = "int64" then "int64_t" else "int32_t"
  else "void*"

/-! ## The parsed JSON tree (`simdjson::dom`) -/

/-- A node of a parsed document. The payload of a number is never read by
the code. An object keeps its fields in document order. -/
inductive Json where
  | null
  | bool (b : Bool)
  | int64 (i : Int)
  | uint64 (n : Nat)
  | double (bits : Nat)
  | string (s : String)
  | array (elems : List Json)
  | object (fields : List (String × Json))

/-- The `simdjson::error_code` values the accessors can meet, and two of
those a load can end with: `IO_ERROR` for a file that cannot be read and
`TAPE_ERROR` for text that is no JSON document. -/
inductive error_code where
  | INCORRECT_TYPE
  | NO_SUCH_FIELD
  | IO_ERROR
  | TAPE_ERROR
  deriving DecidableEq

/-- A `simdjson_result<T>`: a value or an error code. -/
abbrev simdjson_result (α : Type) := Except error_code α

/-- The ways a call can end without returning. -/
inductive Fault where
  /-- a `simdjson_error` thrown by `value()` or by a conversion operator -/
  | simdjson_error (code : error_code)
  /-- an exception leaving a `noexcept` function: `std::terminate` -/
  | terminate
  /-- a read through a default-constructed `dom::element`, which has no
  document behind it -/
  | no_document
  deriving DecidableEq

/-- A `simdjson::dom::element`: `none` is the default-constructed element,
`some j` an element of a parsed document. -/
abbrev element := Option Json

/-- `simdjson_noerror` of `openapi2.hpp`, lines 29-32. -/
def simdjson_noerror {α : Type} (ec : simdjson_result α) : Bool :=
  match ec with
  | Except.ok _ => true
  | Except.error _ => false

/-- `simdjson_result<T>::value()`: the value, or the error thrown. -/
def value {α : Type} (r : simdjson_result α) : Except Fault α :=
  match r with
  | Except.ok a => Except.ok a
  | Except.error c => Except.error (Fault.simdjson_error c)

/-- `dom::element::get_object()`. -/
def get_object (e : element) : Except Fault (simdjson_result (List (String × Json))) :=
  match e with
  | none => Except.error Fault.no_document
  | some (Json.object fields) => Except.ok (Except.ok fields)
  | some _ => Except.ok (Except.error error_code.INCORRECT_TYPE)

/-- `dom::object::at_key`: the value of the first field with that key. -/
def at_key (fields : List (String × Json)) (key : String) : simdjson_result Json :=
  match fields with
  | [] => Except.error error_code.NO_SUCH_FIELD
  | (k, v) :: rest => if k = key then Except.ok v else at_key rest key

/-- `simdjson_result<dom::object>::operator[]`. -/
def index (o : simdjson_result (List (String × Json))) (key : String) : simdjson_result Json :=
  match o with
  | Except.ok fields => at_key fields key
  | Except.error c => Except.error c

/-- `get<std::string_view>()` on a `simdjson_result<dom::element>`. -/
def get_string (v : simdjson_result Json) : simdjson_result String :=
  match v with
  | Except.ok (Json.string s) => Except.ok s
  | Except.ok _ => Except.error error_code.INCORRECT_TYPE
  | Except.error c => Except.error c

/-- `get<bool>()` on a `simdjson_result<dom::element>`. -/
def get_bool (v : simdjson_result Json) : simdjson_result Bool :=
  match v with
  | Except.ok (Json.bool b) => Except.ok b
  | Except.ok _ => Except.error error_code.INCORRECT_TYPE
  | Except.error c => Except.error c

/-- The conversion `simdjson_result<dom::element>` to `dom::object`, which
throws when the element is not an object. -/
def to_object (v : simdjson_result Json) : Except Fault (List (String × Json)) :=
  match v with
  | Except.ok (Json.object fields) => Except.ok fields
  | Except.ok _ => Except.error (Fault.simdjson_error error_code.INCORRECT_TYPE)
  | Except.error c => Except.error (Fault.simdjson_error c)

/-- The conversion `simdjson_result<dom::element>` to `dom::array`, which
throws when the element is not an array. -/
def to_array (v : simdjson_result Json) : Except Fault (List Json) :=
  match v with
  | Except.ok (Json.array elems) => Except.ok elems
  | Except.ok _ => Except.error (Fault.simdjson_error error_code.INCORRECT_TYPE)
  | Except.error c => Except.error (Fault.simdjson_error c)

/-! ## The view layer (`__detail::OpenAPIObject`, `MapAdaptor`, `ListAdaptor`) -/

/-- `__detail::OpenAPIObject<T>`: every view class has this shape. -/
structure OpenAPIObject where
  _json : element
  _is_valid : Bool

/-- The default constructor `OpenAPIObject()`. -/
def OpenAPIObject.default : OpenAPIObject := ⟨none, false⟩

/-- The constructor `OpenAPIObject(simdjson::dom::element&&)`. -/
def OpenAPIObject.of_element (json : Json) : OpenAPIObject := ⟨some json, true⟩

/-- The constructor from a `simdjson_result_base<dom::element>`. -/
def OpenAPIObject.of_result (ec : simdjson_result Json) : OpenAPIObject :=
  match ec with
  | Except.ok json => ⟨some json, true⟩
  | Except.error _ => ⟨none, false⟩

/-- `struct Property`. -/
abbrev Property := OpenAPIObject

/-- `class OpenAPI2`; `_json` is the root of the loaded document. -/
abbrev OpenAPI2 := OpenAPIObject

/-- `__detail::MapAdaptor<T>` for a view class `T`. The base `dom::object`
of a default-constructed adaptor is never read (every member tests
`_is_valid` first); the model keeps the empty field list there. -/
structure MapAdaptor where
  object : List (String × Json)
  _is_valid : Bool

/-- The default constructor `MapAdaptor()`. -/
def MapAdaptor.default : MapAdaptor := ⟨[], false⟩

/-- The constructor `MapAdaptor(const simdjson::dom::object&)`. -/
def MapAdaptor.of_object (obj : List (String × Json)) : MapAdaptor := ⟨obj, true⟩

/-- `MapAdaptor::size`; `dom::object::size()` counts the fields, saturating
at `0xFFFFFF`. -/
def MapAdaptor.size (m : MapAdaptor) : Nat :=
  if m._is_valid then min m.object.length 0xFFFFFF else 0

/-- `MapAdaptor::empty`. -/
def MapAdaptor.empty (m : MapAdaptor) : Bool := m.size == 0

/-- An iterator of a `dom::object` or a `dom::array`: `none` is the
default-constructed iterator, `some k` stands before the `k`-th element.
Iterators compare by position. -/
abbrev Iterator := Option Nat

/-- `MapAdaptor::begin`. -/
def MapAdaptor.begin (m : MapAdaptor) : Iterator :=
  if m._is_valid then some 0 else none

/-- `MapAdaptor::end`. -/
def MapAdaptor.end_ (m : MapAdaptor) : Iterator :=
  if m._is_valid then some m.object.length else MapAdaptor.begin m

/-- The fields a range-`for` from `begin()` to `end()` visits. -/
def MapAdaptor.fields (m : MapAdaptor) : List (String × Json) :=
  if m._is_valid then m.object else []

/-- The pairs `(key, T(value))` a range-`for` over the adaptor yields. -/
def MapAdaptor.entries (m : MapAdaptor) : List (String × OpenAPIObject) :=
  m.fields.map (fun kv => (kv.1, OpenAPIObject.of_element kv.2))

/-- `__detail::ListAdaptor<T>`. As for `MapAdaptor`, the base `dom::array`
of a default-constructed adaptor is never read; the model keeps the empty
list there. -/
structure ListAdaptor where
  array : List Json
  _is_valid : Bool

/-- The default constructor `ListAdaptor()`. -/
def ListAdaptor.default : ListAdaptor := ⟨[], false⟩

/-- The constructor `ListAdaptor(const simdjson::dom::array&)`. -/
def ListAdaptor.of_array (array : List Json) : ListAdaptor := ⟨array, true⟩

/-- `ListAdaptor::size`; `dom::array::size()` counts the elements,
saturating at `0xFFFFFF`. -/
def ListAdaptor.size (l : ListAdaptor) : Nat :=
  if l._is_valid then min l.array.length 0xFFFFFF else 0

/-- `ListAdaptor::empty`. -/
def ListAdaptor.empty (l : ListAdaptor) : Bool := l.size == 0

/-- `ListAdaptor::begin`. -/
def ListAdaptor.begin (l : ListAdaptor) : Iterator :=
  if l._is_valid then some 0 else none

/-- `ListAdaptor::end`. -/
def ListAdaptor.end_ (l : ListAdaptor) : Iterator :=
  if l._is_valid then some l.array.length else ListAdaptor.begin l

/-- The elements a range-`for` from `begin()` to `end()` visits. -/
def ListAdaptor.elements (l : ListAdaptor) : List Json :=
  if l._is_valid then l.array else []

/-- `_GetObjectIfExist<U>` for a view class `U` (lines 114-118). -/
def OpenAPIObject._GetObjectIfExist (self : OpenAPIObject) (key : String) :
    Except Fault OpenAPIObject :=
  match get_object self._json with
  | Except.error f => Except.error f
  | Except.ok o =>
    let v := index o key
    Except.ok (if simdjson_noerror v then OpenAPIObject.of_result v else OpenAPIObject.default)

/-- `_GetObjectIfExist<MapAdaptor<T>>` (lines 114-118): `U(v)` converts the
result to a `dom::object`. -/
def OpenAPIObject._GetObjectIfExist_map (self : OpenAPIObject) (key : String) :
    Except Fault MapAdaptor :=
  match get_object self._json with
  | Except.error f => Except.error f
  | Except.ok o =>
    let v := index o key
    if simdjson_noerror v then
      match to_object v with
      | Except.ok obj => Except.ok (MapAdaptor.of_object obj)
      | Except.error f => Except.error f
    else Except.ok MapAdaptor.default

/-- `_GetObjectIfExist<ListAdaptor<T>>` (lines 114-118): `U(v)` converts the
result to a `dom::array`. -/
def OpenAPIObject._GetObjectIfExist_list (self : OpenAPIObject) (key : String) :
    Except Fault ListAdaptor :=
  match get_object self._json with
  | Except.error f => Except.error f
  | Except.ok o =>
    let v := index o key
    if simdjson_noerror v then
      match to_array v with
      | Except.ok array => Except.ok (ListAdaptor.of_array array)
      | Except.error f => Except.error f
    else Except.ok ListAdaptor.default

/-- `_GetObjectIfExist<std::string_view>` (lines 114-118), as `openapi()`
instantiates it: `U(v)` converts the result to a `std::string_view` and
throws when the element is no string. -/
def OpenAPIObject._GetObjectIfExist_string (self : OpenAPIObject) (key : String) :
    Except Fault String :=
  match get_object self._json with
  | Except.error f => Except.error f
  | Except.ok o =>
    let v := index o key
    if simdjson_noerror v then value (get_string v) else Except.ok ""

/-- `_GetValueIfExist<std::string_view>` (lines 119-123). -/
def OpenAPIObject._GetValueIfExist (self : OpenAPIObject) (key : String) :
    Except Fault String :=
  match get_object self._json with
  | Except.error f => Except.error f
  | Except.ok o =>
    let v := index o key
    if simdjson_noerror v then value (get_string v) else Except.ok ""

/-- `_GetValueIfExist<bool>` (lines 119-123). -/
def OpenAPIObject._GetValueIfExist_bool (self : OpenAPIObject) (key : String) :
    Except Fault Bool :=
  match get_object self._json with
  | Except.error f => Except.error f
  | Except.ok o =>
    let v := index o key
    if simdjson_noerror v then value (get_bool v) else Except.ok false

/-! ## Views of the document: `Operation`, `OpenAPI2` -/

/-- `Operation::deprecated`. -/
def Operation.deprecated (self : OpenAPIObject) : Except Fault Bool :=
  self._GetValueIfExist_bool "deprecated"

/-- `Operation::tags`. -/
def Operation.tags (self : OpenAPIObject) : Except Fault ListAdaptor :=
  self._GetObjectIfExist_list "tags"

/-- `Operation::operation_id`. -/
def Operation.operation_id (self : OpenAPIObject) : Except Fault String :=
  self._GetValueIfExist "operationId"

/-- `Info::title`. -/
def Info.title (self : OpenAPIObject) : Except Fault String :=
  self._GetValueIfExist "title"

/-- `Info::description`. -/
def Info.description (self : OpenAPIObject) : Except Fault String :=
  self._GetValueIfExist "description"

/-- `Info::terms_of_service` (line 199). -/
def Info.terms_of_service (self : OpenAPIObject) : Except Fault String :=
  self._GetValueIfExist "terms_of_service"

/-- `Info::version`. -/
def Info.version (self : OpenAPIObject) : Except Fault String :=
  self._GetValueIfExist "version"

/-- `OpenAPI2::info`. -/
def OpenAPI2.info (self : OpenAPI2) : Except Fault OpenAPIObject :=
  self._GetObjectIfExist "info"

/-- `OpenAPI2::openapi`. -/
def OpenAPI2.openapi (self : OpenAPI2) : Except Fault String :=
  self._GetObjectIfExist_string "openapi"

/-- `OpenAPI2::Load` (lines 213-218). `loaded` is what `_parser.load(path)`
yields for the path: the root of the parsed document, or the error code of
the failed read or parse. The assignment `_root = _parser.load(path)`
converts the result to a `dom::element`, which throws on an error code;
otherwise `_json` becomes the root and the function returns `true`.
`_is_valid` is not touched. -/
def OpenAPI2.Load (self : OpenAPI2) (loaded : simdjson_result Json) :
    Except Fault (Bool × OpenAPI2) :=
  match loaded with
  | Except.error c => Except.error (Fault.simdjson_error c)
  | Except.ok _root => Except.ok (true, ⟨some _root, self._is_valid⟩)

/-! ## The reference resolver -/

/-- `OpenAPI2::definitions`. -/
def OpenAPI2.definitions (self : OpenAPI2) : Except Fault MapAdaptor :=
  self._GetObjectIfExist_map "definitions"

/-- The loop of `GetDefinedSchemaByReference` (lines 222-225) over the
entries of the table. -/
def first_named (entries : List (String × Property)) (reference : String) : Property :=
  match entries with
  | [] => OpenAPIObject.default
  | (schemaname, schema) :: rest =>
    if schemaname = reference then schema else first_named rest reference

/-- `OpenAPI2::GetDefinedSchemaByReference` (lines 220-226). -/
def OpenAPI2.GetDefinedSchemaByReference (self : OpenAPI2) (reference : String) :
    Except Fault Property :=
  let reference :=
    if starts_with reference def_refstr then remove_prefix reference def_refstr.length
    else reference
  match OpenAPI2.definitions self with
  | Except.error f => Except.error f
  | Except.ok defs => Except.ok (first_named defs.entries reference)

/-! ## Name synthesis and the helpers of `util.hpp` -/

/-- The two helpers of `util.hpp` the code calls and whose bodies are not
among the sources: `sanitize(std::string_view)` and the text
`write_multiline_comment(out, comment, indent)` appends to `out`. They are
parameters of the development. -/
structure Util where
  sanitize : String → String
  write_multiline_comment : String → String → String

/-- `SynthesizeFunctionName` of `openapi2.cpp`, lines 228-232. -/
def SynthesizeFunctionName (u : Util) (pathstr : String) (verb : RequestMethod) : String :=
  let name := u.sanitize pathstr
  RequestMethodToString verb ++ "_" ++ name

/-! ## `Property` accessors -/

/-- `Property::type`. -/
def Property.type (self : Property) : Except Fault String :=
  self._GetValueIfExist "type"

/-- `Property::description`. -/
def Property.description (self : Property) : Except Fault String :=
  self._GetValueIfExist "description"

/-- `Property::pattern`. -/
def Property.pattern (self : Property) : Except Fault String :=
  self._GetValueIfExist "pattern"

/-- `Property::format`. -/
def Property.format (self : Property) : Except Fault String :=
  self._GetValueIfExist "format"

/-- `Property::reference`. -/
def Property.reference (self : Property) : Except Fault String :=
  self._GetValueIfExist "$ref"

/-- `Property::items`. -/
def Property.items (self : Property) : Except Fault Property :=
  self._GetObjectIfExist "items"

/-- `Property::properties`. -/
def Property.properties (self : Property) : Except Fault MapAdaptor :=
  self._GetObjectIfExist_map "properties"

/-- `Property::IsReference` (lines 74-76). The function is `noexcept`: a
`simdjson_error` thrown by `reference()` ends in `std::terminate`. -/
def Property.IsReference (self : Property) : Except Fault Bool :=
  match Property.reference self with
  | Except.ok r => Except.ok (starts_with r def_refstr)
  | Except.error (Fault.simdjson_error _) => Except.error Fault.terminate
  | Except.error f => Except.error f

/-! ## The termination measure of `Print`: the size of the node -/

theorem at_key_sizeOf (fields : List (String × Json)) (key : String) (v : Json)
    (h : at_key fields key = Except.ok v) : sizeOf v < sizeOf fields := by
  induction fields with
  | nil => simp [at_key] at h
  | cons kv rest ih =>
    obtain ⟨k, w⟩ := kv
    simp only [at_key] at h
    split at h
    · injection h with h
      subst h
      simp
      omega
    · have := ih h
      simp
      omega

theorem properties_sizeOf (self : Property) (props : MapAdaptor)
    (h : Property.properties self = Except.ok props) :
    sizeOf props.fields < sizeOf self._json := by
  obtain ⟨j, valid⟩ := self
  cases j with
  | none => simp [Property.properties, OpenAPIObject._GetObjectIfExist_map, get_object] at h
  | some j =>
    cases j <;>
      simp [Property.properties, OpenAPIObject._GetObjectIfExist_map, get_object, index,
        simdjson_noerror] at h
    all_goals try (subst h; simp [MapAdaptor.fields, MapAdaptor.default])
    rename_i fields
    cases hk : at_key fields "properties" with
    | error c =>
      simp [hk] at h
      subst h
      simp [MapAdaptor.fields, MapAdaptor.default]
    | ok v =>
      have hv := at_key_sizeOf fields _ v hk
      cases v <;> simp [hk, to_object] at h
      subst h
      simp [MapAdaptor.fields, MapAdaptor.of_object] at hv ⊢
      omega

theorem items_sizeOf (self : Property) (item : Property)
    (h : Property.items self = Except.ok item) :
    sizeOf item._json < sizeOf self._json := by
  obtain ⟨j, valid⟩ := self
  cases j with
  | none => simp [Property.items, OpenAPIObject._GetObjectIfExist, get_object] at h
  | some j =>
    cases j with
    | object fields =>
      simp only [Property.items, OpenAPIObject._GetObjectIfExist, get_object, index] at h
      cases hk : at_key fields "items" with
      | error c =>
        simp [hk, simdjson_noerror] at h
        subst h
        simp [OpenAPIObject.default]
      | ok v =>
        have hv := at_key_sizeOf fields _ v hk
        simp [hk, simdjson_noerror, OpenAPIObject.of_result] at h
        subst h
        simp
        omega
    | _ =>
      simp [Property.items, OpenAPIObject._GetObjectIfExist, get_object, index,
        simdjson_noerror] at h
      subst h
      simp [OpenAPIObject.default]

/-! ## Schema synthesis: `Property::Print` -/

mutual

/-- `Property::Print` of `openapi2.cpp`, lines 78-135. The stream `out` and
the string `indent`, both passed by reference, are threaded through: the
result is the returned tag with the stream's text and the indent on return.
A call that does not return yields its `Fault` alone; what it had written
by then is not modelled. -/
def Property.Print (u : Util) (self : Property) (out : String) (name_ : String)
    (indent : String) : Except Fault (JsonType × String × String) :=
  let name := u.sanitize name_
  match Property.description self with
  | Except.error f => Except.error f
  | Except.ok description =>
  let out := out ++ u.write_multiline_comment description indent
  match Property.IsReference self with
  | Except.error f => Except.error f
  | Except.ok true =>
    match Property.reference self with
    | Except.error f => Except.error f
    | Except.ok ref =>
      Except.ok (JsonType.Reference,
        out ++ indent ++ remove_prefix ref def_refstr.length ++ " obj;\n", indent)
  | Except.ok false =>
    match Property.type self with
    | Except.error f => Except.error f
    | Except.ok typestr =>
      if typestr = "object" then
        let out := out ++ indent ++ "struct " ++ name ++ " \x7b\n"
        let indent := push_back indent '\t'
        match hp : Property.properties self with
        | Except.error f => Except.error f
        | Except.ok props =>
          match Print_properties u props.fields out indent with
          | Except.error f => Except.error f
          | Except.ok (out, indent) =>
            let indent := pop_back indent
            Except.ok (JsonType.Object, out ++ indent ++ "\x7d;\n", indent)
      else if typestr = "array" then
        match hi : Property.items self with
        | Except.error f => Except.error f
        | Except.ok item =>
          match Property.IsReference item with
          | Except.error f => Except.error f
          | Except.ok true =>
            match Property.reference item with
            | Except.error f => Except.error f
            | Except.ok ref =>
              Except.ok (JsonType.Array,
                out ++ indent ++ "using " ++ name ++ " = std::vector<"
                  ++ remove_prefix ref def_refstr.length ++ ">;\n", indent)
          | Except.ok false =>
            match Property.type item with
            | Except.error f => Except.error f
            | Except.ok itemtype =>
              if itemtype ≠ "object" ∧ itemtype ≠ "array" then
                if indent.isEmpty then
                  Except.ok (JsonType.Array,
                    out ++ indent ++ "using " ++ name ++ " = " ++ "std::vector<"
                      ++ JsonTypeToCppType itemtype ++ ">;\n", indent)
                else
                  Except.ok (JsonType.Array,
                    out ++ indent ++ "std::vector<" ++ JsonTypeToCppType itemtype ++ "> "
                      ++ name ++ ";\n", indent)
              else if itemtype = "array" then
                Except.ok (JsonType.Array, out, indent)
              else
                let nested_typename := name ++ "_"
                match Property.Print u item out nested_typename indent with
                | Except.error f => Except.error f
                | Except.ok (_, out, indent) =>
                  if indent.isEmpty then
                    Except.ok (JsonType.Array,
                      out ++ indent ++ "using " ++ name ++ " = " ++ "std::vector<"
                        ++ nested_typename ++ ">;\n", indent)
                  else
                    Except.ok (JsonType.Array,
                      out ++ indent ++ "std::vector<" ++ nested_typename ++ "> " ++ name
                        ++ "_;\n", indent)
      else
        Except.ok (JsonType.Primitive,
          out ++ indent ++ JsonTypeToCppType typestr ++ " " ++ name ++ ";\n", indent)
termination_by sizeOf self._json
decreasing_by
  · exact properties_sizeOf self props hp
  · exact items_sizeOf self item hi

/-- The loop of lines 92-97 over the fields of `properties()`, each wrapped
in a `Property` view, in document order. -/
def Print_properties (u : Util) (fields : List (String × Json)) (out : String)
    (indent : String) : Except Fault (String × String) :=
  match fields with
  | [] => Except.ok (out, indent)
  | (subpropname, subprop) :: rest =>
    match Property.Print u (OpenAPIObject.of_element subprop) out subpropname indent with
    | Except.error f => Except.error f
    | Except.ok (rettype, out, indent) =>
      let out :=
        if rettype = JsonType.Object then
          out ++ indent ++ u.sanitize subpropname ++ " " ++ subpropname ++ "_;\n"
        else out
      Print_properties u rest out indent
termination_by sizeOf fields
decreasing_by
  · simp [OpenAPIObject.of_element]
    omega
  · simp

end

/-! ## Well-shaped schema nodes -/

/-- A member that `_GetValueIfExist<std::string_view>` reads without
throwing: absent, or a string. -/
def string_or_absent (fields : List (String × Json)) (key : String) : Bool :=
  match at_key fields key with
  | Except.ok (Json.string _) => true
  | Except.ok _ => false
  | Except.error _ => true

/-- A member that `_GetObjectIfExist<MapAdaptor<T>>` reads without throwing:
absent, or an object. -/
def object_or_absent (fields : List (String × Json)) (key : String) : Bool :=
  match at_key fields key with
  | Except.ok (Json.object _) => true
  | Except.ok _ => false
  | Except.error _ => true

/-- The members `Print` reads in one object have the shapes it expects, and
an object of type `"array"` carries `items`. -/
def shaped (fields : List (String × Json)) : Bool :=
  string_or_absent fields "description" && string_or_absent fields "$ref"
    && string_or_absent fields "type" && object_or_absent fields "properties"
    && (match at_key fields "type" with
        | Except.ok (Json.string t) => t != "array" || simdjson_noerror (at_key fields "items")
        | _ => true)

mutual

/-- The node is a well-shaped schema tree: the node itself, the values of
its `properties` and its `items`, and so on downwards, are `shaped`
whenever they are objects. -/
def tidy : Json → Bool
  | Json.object fields => shaped fields && tidy_members fields
  | _ => true

/-- The members of a schema node that hold schemas are well shaped: the
children of `properties` and the value of `items`. -/
def tidy_members : List (String × Json) → Bool
  | [] => true
  | (key, v) :: rest =>
    (if key = "properties" then tidy_children v
      else if key = "items" then tidy v else true) && tidy_members rest

/-- The value of a `properties` member: when it is an object, each of its
field values is a well-shaped schema tree. -/
def tidy_children : Json → Bool
  | Json.object props => tidy_fields props
  | _ => true

/-- Every field value of the list is `tidy`. -/
def tidy_fields : List (String × Json) → Bool
  | [] => true
  | (_, v) :: rest => tidy v && tidy_fields rest

end

/-! ## Sample inputs -/

/-- A sample choice of the two `util.hpp` helpers, used at concrete inputs: a
sanitizer that leaves its input unchanged and a comment writer that writes
nothing. -/
def sample_util : Util := ⟨fun input => input, fun _ _ => ""⟩

/-- A sample sanitizer for concrete inputs: every character that is no ASCII
letter or digit becomes an underscore. -/
def sample_sanitize (input : String) : String :=
  ⟨input.data.map (fun c => if c.isAlphanum then c else '_')⟩

/-- A second sample choice of the helpers: `sample_sanitize` and a comment
writer that writes nothing. -/
def underscore_util : Util := ⟨sample_sanitize, fun _ _ => ""⟩

/-- The schema of Scenario A:
`{"type":"object","properties":{"name":{"type":"string"},
"tags":{"type":"array","items":{"type":"string"}}}}`. -/
def scenarioA : Json :=
  Json.object [("type", Json.string "object"),
    ("properties", Json.object [
      ("name", Json.object [("type", Json.string "string")]),
      ("tags", Json.object [("type", Json.string "array"),
        ("items", Json.object [("type", Json.string "string")])])])]

/-- The reference node `{"description": "a pet", "$ref": "#/definitions/Pet",
"properties": {"id": {"type": "integer"}}}`. -/
def pet_reference_node : Json :=
  Json.object [("description", Json.string "a pet"),
    ("$ref", Json.string "#/definitions/Pet"),
    ("properties", Json.object [("id", Json.object [("type", Json.string "integer")])])]

/-- The array node `{"type": "array", "items": {"type": "number", "format":
"double"}}`. -/
def double_array_node : Json :=
  Json.object [("type", Json.string "array"),
    ("items", Json.object [("type", Json.string "number"), ("format", Json.string "double")])]

/-- The object node `{"type": "object", "properties": {"id": {"type":
["integer", "null"]}}}`, whose child declares a union type. -/
def union_child_node : Json :=
  Json.object [("type", Json.string "object"),
    ("properties", Json.object [("id", Json.object [("type",
      Json.array [Json.string "integer", Json.string "null"])])])]

/-- A schema with a property that is itself named `type`:
`{"type": "object", "properties": {"code": {"type": "integer", "format":
"int32"}, "type": {"type": "string"}, "message": {"type": "string"}}}`. -/
def api_response_node : Json :=
  Json.object [("type", Json.string "object"),
    ("properties", Json.object [
      ("code", Json.object [("type", Json.string "integer"), ("format", Json.string "int32")]),
      ("type", Json.object [("type", Json.string "string")]),
      ("message", Json.object [("type", Json.string "string")])])]

/-- The array node `{"type": "array", "items": {"$ref":
"#/definitions/Tag"}}`. -/
def tag_array_node : Json :=
  Json.object [("type", Json.string "array"),
    ("items", Json.object [("$ref", Json.string "#/definitions/Tag")])]

/-- The object node `{"type": "object", "properties": {"id": {"type":
"integer"}}}`. -/
def id_object_node : Json :=
  Json.object [("type", Json.string "object"),
    ("properties", Json.object [("id", Json.object [("type", Json.string "integer")])])]

/-- The array node `{"type": "array", "items": {"type": "object",
"properties": {"id": {"type": "integer"}}}}`. -/
def object_array_node : Json :=
  Json.object [("type", Json.string "array"), ("items", id_object_node)]

/-- A definition that refers to itself:
`{"type": "object", "properties": {"next": {"$ref": "#/definitions/Node"}}}`,
to be stored under the name `Node`. -/
def self_reference_node : Json :=
  Json.object [("type", Json.string "object"),
    ("properties", Json.object [("next",
      Json.object [("$ref", Json.string "#/definitions/Node")])])]

/-- The document whose definitions table holds `self_reference_node` under
the name `Node`: a `$ref` cycle of length one. -/
def node_document : OpenAPI2 :=
  OpenAPIObject.of_element (Json.object [("swagger", Json.string "2.0"),
    ("definitions", Json.object [("Node", self_reference_node)])])

/-- The reference node `{"$ref": "#/definitions/Pet-Type"}`, whose target
name is no identifier. -/
def hyphen_reference_node : Json :=
  Json.object [("$ref", Json.string "#/definitions/Pet-Type")]

/-- The object node `{"type": "object", "properties": {"pet-type": {"type":
"object"}}}`, with a property key that is no identifier. -/
def hyphen_key_node : Json :=
  Json.object [("type", Json.string "object"),
    ("properties", Json.object [("pet-type", Json.object [("type", Json.string "object")])])]

/-- The array node `{"type": "array", "items": {"$ref":
"#/definitions/Pet-Type"}}`. -/
def hyphen_array_node : Json :=
  Json.object [("type", Json.string "array"),
    ("items", Json.object [("$ref", Json.string "#/definitions/Pet-Type")])]

/-- An `info` object as the OpenAPI documents spell it: `{"title":
"Swagger Petstore", "termsOfService": "http://swagger.io/terms/", "version":
"1.0.0"}`. -/
def petstore_info : Json :=
  Json.object [("title", Json.string "Swagger Petstore"),
    ("termsOfService", Json.string "http://swagger.io/terms/"),
    ("version", Json.string "1.0.0")]

/-- The document holding `petstore_info` under `info`. -/
def petstore_document : OpenAPI2 :=
  OpenAPIObject.of_element (Json.object [("swagger", Json.string "2.0"),
    ("info", petstore_info)])

/-- The object node `{"type": "object", "properties": {"pet": {"$ref":
"#/definitions/Pet"}, "tag": {"$ref": "#/definitions/Tag"}}}`. -/
def two_references_node : Json :=
  Json.object [("type", Json.string "object"),
    ("properties", Json.object [
      ("pet", Json.object [("$ref", Json.string "#/definitions/Pet")]),
      ("tag", Json.object [("$ref", Json.string "#/definitions/Tag")])])]

/-- The object node `{"type": "object", "properties": {"pet": {"description":
5, "$ref": "#/definitions/Pet"}, "tag": {"$ref": "#/definitions/Tag"}}}`,
whose first reference carries a description that is no string. -/
def numbered_reference_node : Json :=
  Json.object [("type", Json.string "object"),
    ("properties", Json.object [
      ("pet", Json.object [("description", Json.int64 5),
        ("$ref", Json.string "#/definitions/Pet")]),
      ("tag", Json.object [("$ref", Json.string "#/definitions/Tag")])])]

/-- The object node `{"type": "object", "properties": {"pet": {"$ref":
"#/definitions/Pet"}, "name": {"type": "string"}, "tag": {"$ref":
"#/definitions/Tag"}}}`: two references with a scalar between them. -/
def spaced_references_node : Json :=
  Json.object [("type", Json.string "object"),
    ("properties", Json.object [
      ("pet", Json.object [("$ref", Json.string "#/definitions/Pet")]),
      ("name", Json.object [("type", Json.string "string")]),
      ("tag", Json.object [("$ref", Json.string "#/definitions/Tag")])])]

/-- The object node `{"type": "object", "properties": {"id": {"type":
["integer", "null"]}, "pet": {"$ref": "#/definitions/Pet"}, "tag": {"$ref":
"#/definitions/Tag"}}}`, whose first property carries a `type` that is no
string, listed before two references. -/
def late_references_node : Json :=
  Json.object [("type", Json.string "object"),
    ("properties", Json.object [
      ("id", Json.object [("type",
        Json.array [Json.string "integer", Json.string "null"])]),
      ("pet", Json.object [("$ref", Json.string "#/definitions/Pet")]),
      ("tag", Json.object [("$ref", Json.string "#/definitions/Tag")])])]

/-- A document whose definitions table names `Pet` twice and `pet` once. -/
def pet_table : List (String × Json) :=
  [("Order", Json.null), ("Pet", Json.bool true), ("pet", Json.bool false),
    ("Pet", Json.string "second")]

/-- The document holding `pet_table` under `definitions`. -/
def pet_document : OpenAPI2 :=
  OpenAPIObject.of_element (Json.object [("swagger", Json.string "2.0"),
    ("definitions", Json.object pet_table)])

/-! ## Induction along the recursion of `Print`, and its equations per branch -/

theorem Print_induction (P : Property → Prop) (Q : List (String × Json) → Prop)
    (hP : ∀ self : Property,
      (∀ props, Property.properties self = Except.ok props → Q props.fields) →
      (∀ item, Property.items self = Except.ok item → P item) → P self)
    (hnil : Q [])
    (hcons : ∀ k v rest, P (OpenAPIObject.of_element v) → Q rest → Q ((k, v) :: rest)) :
    (∀ self, P self) ∧ (∀ fields, Q fields) := by
  have key : ∀ n : Nat, (∀ self : Property, sizeOf self._json ≤ n → P self) ∧
      (∀ fields : List (String × Json), sizeOf fields ≤ n → Q fields) := by
    intro n
    induction n with
    | zero =>
      constructor
      · intro self h
        obtain ⟨j, valid⟩ := self
        cases j <;> simp at h
      · intro fields h
        cases fields <;> simp at h
    | succ n ih =>
      constructor
      · intro self h
        apply hP
        · intro props hp
          have := properties_sizeOf self props hp
          exact ih.2 _ (by omega)
        · intro item hi
          have := items_sizeOf self item hi
          exact ih.1 _ (by omega)
      · intro fields h
        cases fields with
        | nil => exact hnil
        | cons kv rest =>
          obtain ⟨k, v⟩ := kv
          simp at h
          apply hcons
          · apply ih.1
            simp [OpenAPIObject.of_element]
            omega
          · apply ih.2
            omega
  exact ⟨fun self => (key _).1 self (Nat.le_refl _), fun fields => (key _).2 fields (Nat.le_refl _)⟩


theorem IsReference_of_reference (self : Property) (r : String)
    (hr : Property.reference self = Except.ok r) :
    Property.IsReference self = Except.ok (starts_with r def_refstr) := by
  simp only [Property.IsReference, hr]

theorem Print_description_error (u : Util) (self : Property) (out name_ indent : String)
    (f : Fault) (hd : Property.description self = Except.error f) :
    Property.Print u self out name_ indent = Except.error f := by
  rw [Property.Print]
  simp only [hd]

theorem Print_reference (u : Util) (self : Property) (out name_ indent d r : String)
    (hd : Property.description self = Except.ok d)
    (hr : Property.reference self = Except.ok r)
    (hpre : starts_with r def_refstr = true) :
    Property.Print u self out name_ indent =
      Except.ok (JsonType.Reference,
        out ++ u.write_multiline_comment d indent ++ indent
          ++ remove_prefix r def_refstr.length ++ " obj;\n", indent) := by
  rw [Property.Print]
  simp only [hd, Property.IsReference, hr, hpre]

theorem Print_object (u : Util) (self : Property) (out name_ indent d r : String)
    (props : MapAdaptor)
    (hd : Property.description self = Except.ok d)
    (hr : Property.reference self = Except.ok r)
    (hnr : starts_with r def_refstr = false)
    (ht : Property.type self = Except.ok "object")
    (hp : Property.properties self = Except.ok props) :
    Property.Print u self out name_ indent =
      match Print_properties u props.fields
          (out ++ u.write_multiline_comment d indent ++ indent ++ "struct "
            ++ u.sanitize name_ ++ " \x7b\n")
          (push_back indent '\t') with
      | Except.error f => Except.error f
      | Except.ok (out1, indent1) =>
        Except.ok (JsonType.Object, out1 ++ pop_back indent1 ++ "\x7d;\n", pop_back indent1) := by
  rw [Property.Print]
  simp only [hd, Property.IsReference, hr, hnr, ht, if_true]
  split
  · rename_i f hf
    rw [hp] at hf
    cases hf
  · rename_i props1 hp1
    rw [hp] at hp1
    cases hp1
    rfl

theorem Print_array_reference (u : Util) (self item : Property)
    (out name_ indent d r ri : String)
    (hd : Property.description self = Except.ok d)
    (hr : Property.reference self = Except.ok r)
    (hnr : starts_with r def_refstr = false)
    (ht : Property.type self = Except.ok "array")
    (hi : Property.items self = Except.ok item)
    (hri : Property.reference item = Except.ok ri)
    (hpre : starts_with ri def_refstr = true) :
    Property.Print u self out name_ indent =
      Except.ok (JsonType.Array,
        out ++ u.write_multiline_comment d indent ++ indent ++ "using "
          ++ u.sanitize name_ ++ " = std::vector<" ++ remove_prefix ri def_refstr.length
          ++ ">;\n", indent) := by
  rw [Property.Print]
  simp only [hd, Property.IsReference, hr, hnr, ht]
  simp only [show ("array" : String) ≠ "object" by decide, if_false, if_true]
  split
  · rename_i f hf
    rw [hi] at hf
    cases hf
  · rename_i item1 hi1
    rw [hi] at hi1
    cases hi1
    simp only [hri, hpre]

theorem Print_array_primitive (u : Util) (self item : Property)
    (out name_ indent d r ri ti : String)
    (hd : Property.description self = Except.ok d)
    (hr : Property.reference self = Except.ok r)
    (hnr : starts_with r def_refstr = false)
    (ht : Property.type self = Except.ok "array")
    (hi : Property.items self = Except.ok item)
    (hri : Property.reference item = Except.ok ri)
    (hnri : starts_with ri def_refstr = false)
    (hti : Property.type item = Except.ok ti)
    (hto : ti ≠ "object") (hta : ti ≠ "array") :
    Property.Print u self out name_ indent =
      Except.ok (JsonType.Array,
        if indent.isEmpty then
          out ++ u.write_multiline_comment d indent ++ indent ++ "using "
            ++ u.sanitize name_ ++ " = " ++ "std::vector<" ++ JsonTypeToCppType ti ++ ">;\n"
        else
          out ++ u.write_multiline_comment d indent ++ indent ++ "std::vector<"
            ++ JsonTypeToCppType ti ++ "> " ++ u.sanitize name_ ++ ";\n",
        indent) := by
  rw [Property.Print]
  simp only [hd, Property.IsReference, hr, hnr, ht]
  simp only [show ("array" : String) ≠ "object" by decide, if_false, if_true]
  split
  · rename_i f hf
    rw [hi] at hf
    cases hf
  · rename_i item1 hi1
    rw [hi] at hi1
    cases hi1
    simp only [hri, hnri, hti, hto, hta, ne_eq, not_false_eq_true, and_self, if_true]
    split <;> rfl

theorem Print_array_array (u : Util) (self item : Property)
    (out name_ indent d r ri : String)
    (hd : Property.description self = Except.ok d)
    (hr : Property.reference self = Except.ok r)
    (hnr : starts_with r def_refstr = false)
    (ht : Property.type self = Except.ok "array")
    (hi : Property.items self = Except.ok item)
    (hri : Property.reference item = Except.ok ri)
    (hnri : starts_with ri def_refstr = false)
    (hti : Property.type item = Except.ok "array") :
    Property.Print u self out name_ indent =
      Except.ok (JsonType.Array, out ++ u.write_multiline_comment d indent, indent) := by
  rw [Property.Print]
  simp only [hd, Property.IsReference, hr, hnr, ht]
  simp only [show ("array" : String) ≠ "object" by decide, if_false, if_true]
  split
  · rename_i f hf
    rw [hi] at hf
    cases hf
  · rename_i item1 hi1
    rw [hi] at hi1
    cases hi1
    simp only [hri, hnri, hti]
    simp

theorem Print_array_object (u : Util) (self item : Property)
    (out name_ indent d r ri : String)
    (hd : Property.description self = Except.ok d)
    (hr : Property.reference self = Except.ok r)
    (hnr : starts_with r def_refstr = false)
    (ht : Property.type self = Except.ok "array")
    (hi : Property.items self = Except.ok item)
    (hri : Property.reference item = Except.ok ri)
    (hnri : starts_with ri def_refstr = false)
    (hti : Property.type item = Except.ok "object") :
    Property.Print u self out name_ indent =
      match Property.Print u item (out ++ u.write_multiline_comment d indent)
          (u.sanitize name_ ++ "_") indent with
      | Except.error f => Except.error f
      | Except.ok (_, out1, indent1) =>
        Except.ok (JsonType.Array,
          if indent1.isEmpty then
            out1 ++ indent1 ++ "using " ++ u.sanitize name_ ++ " = " ++ "std::vector<"
              ++ (u.sanitize name_ ++ "_") ++ ">;\n"
          else
            out1 ++ indent1 ++ "std::vector<" ++ (u.sanitize name_ ++ "_") ++ "> "
              ++ u.sanitize name_ ++ "_;\n",
          indent1) := by
  rw [Property.Print]
  simp only [hd, Property.IsReference, hr, hnr, ht]
  simp only [show ("array" : String) ≠ "object" by decide, if_false, if_true]
  split
  · rename_i f hf
    rw [hi] at hf
    cases hf
  · rename_i item1 hi1
    rw [hi] at hi1
    cases hi1
    simp only [hri, hnri, hti]
    simp only [show ("object" : String) ≠ "array" by decide, ne_eq, not_true_eq_false,
      false_and, if_false]
    split
    · rfl
    · split <;> rfl


theorem Print_primitive (u : Util) (self : Property) (out name_ indent d r t : String)
    (hd : Property.description self = Except.ok d)
    (hr : Property.reference self = Except.ok r)
    (hnr : starts_with r def_refstr = false)
    (ht : Property.type self = Except.ok t)
    (hto : t ≠ "object") (hta : t ≠ "array") :
    Property.Print u self out name_ indent =
      Except.ok (JsonType.Primitive,
        out ++ u.write_multiline_comment d indent ++ indent ++ JsonTypeToCppType t ++ " "
          ++ u.sanitize name_ ++ ";\n", indent) := by
  rw [Property.Print]
  simp only [hd, Property.IsReference, hr, hnr, ht, hto, hta, if_false]

/-! ## Accessors on well-shaped nodes -/

theorem GetValueIfExist_object (fields : List (String × Json)) (b : Bool) (key : String) :
    OpenAPIObject._GetValueIfExist ⟨some (Json.object fields), b⟩ key =
      match at_key fields key with
      | Except.ok (Json.string s) => Except.ok s
      | Except.ok _ => Except.error (Fault.simdjson_error error_code.INCORRECT_TYPE)
      | Except.error _ => Except.ok "" := by
  simp only [OpenAPIObject._GetValueIfExist, get_object, index]
  cases h : at_key fields key with
  | error c => simp [simdjson_noerror]
  | ok v => cases v <;> simp [simdjson_noerror, get_string, value]

theorem GetValueIfExist_non_object (j : Json) (b : Bool) (key : String)
    (h : ∀ fields, j ≠ Json.object fields) :
    OpenAPIObject._GetValueIfExist ⟨some j, b⟩ key = Except.ok "" := by
  cases j <;> simp [OpenAPIObject._GetValueIfExist, get_object, index, simdjson_noerror]
  exact absurd rfl (h _)

theorem GetValueIfExist_shaped (fields : List (String × Json)) (b : Bool) (key : String)
    (h : string_or_absent fields key = true) :
    ∃ s, OpenAPIObject._GetValueIfExist ⟨some (Json.object fields), b⟩ key = Except.ok s := by
  rw [GetValueIfExist_object]
  unfold string_or_absent at h
  cases hk : at_key fields key with
  | error c => exact ⟨_, rfl⟩
  | ok v =>
    rw [hk] at h
    cases v <;> first | exact ⟨_, rfl⟩ | cases h

theorem tidy_reads (j : Json) (b : Bool) (h : tidy j = true) :
    (∃ d, Property.description ⟨some j, b⟩ = Except.ok d) ∧
    (∃ r, Property.reference ⟨some j, b⟩ = Except.ok r) ∧
    (∃ t, Property.type ⟨some j, b⟩ = Except.ok t) := by
  cases j with
  | object fields =>
    simp only [tidy, shaped, Bool.and_eq_true] at h
    obtain ⟨⟨⟨⟨⟨h1, h2⟩, h3⟩, _⟩, _⟩, _⟩ := h
    exact ⟨GetValueIfExist_shaped fields b _ h1, GetValueIfExist_shaped fields b _ h2,
      GetValueIfExist_shaped fields b _ h3⟩
  | _ =>
    refine ⟨⟨"", ?_⟩, ⟨"", ?_⟩, ⟨"", ?_⟩⟩ <;>
      exact GetValueIfExist_non_object _ b _ (fun fields hf => by cases hf)

theorem tidy_members_properties (fields : List (String × Json)) (v : Json)
    (h : tidy_members fields = true) (hk : at_key fields "properties" = Except.ok v) :
    tidy_children v = true := by
  induction fields with
  | nil => simp [at_key] at hk
  | cons kv rest ih =>
    obtain ⟨k, w⟩ := kv
    simp only [tidy_members, Bool.and_eq_true] at h
    simp only [at_key] at hk
    split at hk
    · rename_i hkey
      injection hk with hk
      subst hk
      subst hkey
      simpa using h.1
    · exact ih h.2 hk

theorem tidy_members_items (fields : List (String × Json)) (v : Json)
    (h : tidy_members fields = true) (hk : at_key fields "items" = Except.ok v) :
    tidy v = true := by
  induction fields with
  | nil => simp [at_key] at hk
  | cons kv rest ih =>
    obtain ⟨k, w⟩ := kv
    simp only [tidy_members, Bool.and_eq_true] at h
    simp only [at_key] at hk
    split at hk
    · rename_i hkey
      injection hk with hk
      subst hk
      subst hkey
      have h1 := h.1
      rw [if_neg (by decide), if_pos rfl] at h1
      exact h1
    · exact ih h.2 hk

theorem tidy_properties (j : Json) (b : Bool) (h : tidy j = true) :
    ∃ props, Property.properties ⟨some j, b⟩ = Except.ok props ∧
      tidy_fields props.fields = true := by
  cases j with
  | object fields =>
    simp only [tidy, shaped, Bool.and_eq_true] at h
    obtain ⟨⟨⟨_, hp⟩, _⟩, hf⟩ := h
    simp only [Property.properties, OpenAPIObject._GetObjectIfExist_map, get_object, index]
    unfold object_or_absent at hp
    cases hk : at_key fields "properties" with
    | error c =>
      exact ⟨MapAdaptor.default, by simp [simdjson_noerror], rfl⟩
    | ok v =>
      rw [hk] at hp
      cases v <;> cases hp
      rename_i pf
      refine ⟨MapAdaptor.of_object pf, by simp [simdjson_noerror, to_object], ?_⟩
      have := tidy_members_properties fields _ hf hk
      simpa [tidy_children] using this
  | _ =>
    exact ⟨MapAdaptor.default,
      by simp [Property.properties, OpenAPIObject._GetObjectIfExist_map, get_object, index,
        simdjson_noerror], rfl⟩

theorem tidy_items (j : Json) (b : Bool) (h : tidy j = true)
    (ht : Property.type ⟨some j, b⟩ = Except.ok "array") :
    ∃ v, Property.items ⟨some j, b⟩ = Except.ok (OpenAPIObject.of_element v) ∧
      tidy v = true := by
  cases j with
  | object fields =>
    simp only [tidy, shaped, Bool.and_eq_true] at h
    obtain ⟨⟨_, hi⟩, hf⟩ := h
    simp only [Property.type, GetValueIfExist_object] at ht
    cases hk : at_key fields "type" with
    | error c =>
      rw [hk] at ht
      exact absurd (Except.ok.inj ht) (by decide)
    | ok w =>
      rw [hk] at ht hi
      cases w <;> cases ht
      simp only [bne_self_eq_false, Bool.false_or] at hi
      cases hv : at_key fields "items" with
      | error c => rw [hv] at hi; cases hi
      | ok v =>
        refine ⟨v, ?_, tidy_members_items fields _ hf hv⟩
        simp [Property.items, OpenAPIObject._GetObjectIfExist, get_object, index, hv,
          simdjson_noerror, OpenAPIObject.of_result, OpenAPIObject.of_element]
  | _ =>
    rw [Property.type, GetValueIfExist_non_object _ b _ (fun fields hf => by cases hf)] at ht
    exact absurd (Except.ok.inj ht) (by decide)

/-! ## `Print` leaves the indent as it found it, and returns on well-shaped nodes -/

theorem pop_back_push_back (s : String) (c : Char) : pop_back (push_back s c) = s := by
  simp [pop_back, push_back]

theorem Print_properties_nil (u : Util) (out indent : String) :
    Print_properties u [] out indent = Except.ok (out, indent) := by
  rw [Print_properties]

theorem Print_properties_cons (u : Util) (k : String) (v : Json)
    (rest : List (String × Json)) (out indent : String) :
    Print_properties u ((k, v) :: rest) out indent =
      match Property.Print u (OpenAPIObject.of_element v) out k indent with
      | Except.error f => Except.error f
      | Except.ok (rettype, out1, indent1) =>
        Print_properties u rest
          (if rettype = JsonType.Object then
            out1 ++ indent1 ++ u.sanitize k ++ " " ++ k ++ "_;\n"
          else out1) indent1 := by
  rw [Print_properties]

theorem Print_total (u : Util) :
    (∀ self : Property, ∀ j b, self = ⟨some j, b⟩ → tidy j = true →
      ∀ out name_ indent, ∃ res, Property.Print u self out name_ indent = Except.ok res) ∧
    (∀ fields : List (String × Json), tidy_fields fields = true →
      ∀ out indent, ∃ res, Print_properties u fields out indent = Except.ok res) := by
  apply Print_induction
  · intro self ihQ ihP j b hself ht out name_ indent
    subst hself
    obtain ⟨⟨d, hd⟩, ⟨r, hr⟩, ⟨t, hty⟩⟩ := tidy_reads j b ht
    by_cases hpre : starts_with r def_refstr = true
    · exact ⟨_, Print_reference u _ out name_ indent d r hd hr hpre⟩
    have hnr : starts_with r def_refstr = false := by simpa using hpre
    by_cases hobj : t = "object"
    · subst hobj
      obtain ⟨props, hp, htp⟩ := tidy_properties j b ht
      rw [Print_object u _ out name_ indent d r props hd hr hnr hty hp]
      obtain ⟨⟨o1, i1⟩, h1⟩ := ihQ props hp htp
        (out ++ u.write_multiline_comment d indent ++ indent ++ "struct "
          ++ u.sanitize name_ ++ " \x7b\n") (push_back indent '\t')
      rw [h1]
      exact ⟨_, rfl⟩
    by_cases harr : t = "array"
    · subst harr
      obtain ⟨v, hi, htv⟩ := tidy_items j b ht hty
      obtain ⟨_, ⟨ri, hri⟩, ⟨ti, hti⟩⟩ := tidy_reads v true htv
      by_cases hprei : starts_with ri def_refstr = true
      · exact ⟨_, Print_array_reference u _ _ out name_ indent d r ri hd hr hnr hty hi hri hprei⟩
      have hnri : starts_with ri def_refstr = false := by simpa using hprei
      by_cases hio : ti = "object"
      · subst hio
        rw [Print_array_object u _ _ out name_ indent d r ri hd hr hnr hty hi hri hnri hti]
        obtain ⟨⟨tag, o1, i1⟩, h1⟩ := ihP _ hi v true rfl htv
          (out ++ u.write_multiline_comment d indent) (u.sanitize name_ ++ "_") indent
        rw [h1]
        exact ⟨_, rfl⟩
      by_cases hia : ti = "array"
      · subst hia
        exact ⟨_, Print_array_array u _ _ out name_ indent d r ri hd hr hnr hty hi hri hnri hti⟩
      exact ⟨_, Print_array_primitive u _ _ out name_ indent d r ri ti hd hr hnr hty hi hri hnri
        hti hio hia⟩
    exact ⟨_, Print_primitive u _ out name_ indent d r t hd hr hnr hty hobj harr⟩
  · intro _ out indent
    exact ⟨_, Print_properties_nil u out indent⟩
  · intro k v rest ihP ihQ ht out indent
    simp only [tidy_fields, Bool.and_eq_true] at ht
    rw [Print_properties_cons]
    obtain ⟨⟨tag, o1, i1⟩, h1⟩ := ihP v true rfl ht.1 out k indent
    rw [h1]
    exact ihQ ht.2 _ _

theorem Print_indent (u : Util) :
    (∀ self : Property, ∀ out name_ indent tag o i,
      Property.Print u self out name_ indent = Except.ok (tag, o, i) → i = indent) ∧
    (∀ fields : List (String × Json), ∀ out indent o i,
      Print_properties u fields out indent = Except.ok (o, i) → i = indent) := by
  apply Print_induction
  · intro self ihQ ihP out name_ indent tag o i h
    rw [Property.Print] at h
    split at h
    · cases h
    split at h
    · cases h
    · split at h
      · cases h
      · simp only [Except.ok.injEq, Prod.mk.injEq] at h
        exact h.2.2.symm
    · split at h
      · cases h
      split at h
      · split at h
        · cases h
        rename_i props hp
        dsimp only at h
        split at h
        · cases h
        rename_i o1 i1 h1
        simp only [Except.ok.injEq, Prod.mk.injEq] at h
        rw [← h.2.2, ihQ props hp _ _ _ _ h1, pop_back_push_back]
      split at h
      · split at h
        · cases h
        rename_i item hi
        split at h
        · cases h
        · split at h
          · cases h
          · simp only [Except.ok.injEq, Prod.mk.injEq] at h
            exact h.2.2.symm
        · split at h
          · cases h
          split at h
          · split at h <;>
            · simp only [Except.ok.injEq, Prod.mk.injEq] at h
              exact h.2.2.symm
          split at h
          · simp only [Except.ok.injEq, Prod.mk.injEq] at h
            exact h.2.2.symm
          dsimp only at h
          split at h
          · cases h
          rename_i tag1 o1 i1 h1
          have hi1 := ihP item hi _ _ _ _ _ _ h1
          split at h <;>
          · simp only [Except.ok.injEq, Prod.mk.injEq] at h
            rw [← h.2.2, hi1]
      · simp only [Except.ok.injEq, Prod.mk.injEq] at h
        exact h.2.2.symm
  · intro out indent o i h
    rw [Print_properties_nil] at h
    simp only [Except.ok.injEq, Prod.mk.injEq] at h
    exact h.2.symm
  · intro k v rest ihP ihQ out indent o i h
    rw [Print_properties_cons] at h
    split at h
    · cases h
    rename_i tag1 o1 i1 h1
    rw [ihQ _ _ _ _ h, ihP _ _ _ _ _ _ h1]

theorem IsReference_ok (self : Property) (b : Bool)
    (h : Property.IsReference self = Except.ok b) :
    ∃ r, Property.reference self = Except.ok r ∧ starts_with r def_refstr = b := by
  unfold Property.IsReference at h
  cases hr : Property.reference self with
  | error f =>
    rw [hr] at h
    cases f <;> cases h
  | ok r =>
    rw [hr] at h
    injection h with h
    exact ⟨r, rfl, h⟩

theorem Print_type_error (u : Util) (self : Property) (out name_ indent d r : String)
    (f : Fault)
    (hd : Property.description self = Except.ok d)
    (hr : Property.reference self = Except.ok r)
    (hnr : starts_with r def_refstr = false)
    (ht : Property.type self = Except.error f) :
    Property.Print u self out name_ indent = Except.error f := by
  rw [Property.Print]
  simp only [hd, Property.IsReference, hr, hnr, ht]

theorem Print_tag (u : Util) (self : Property) (out name_ indent : String)
    (tag : JsonType) (o i : String)
    (h : Property.Print u self out name_ indent = Except.ok (tag, o, i)) :
    ∃ r, Property.reference self = Except.ok r ∧
      ((starts_with r def_refstr = true ∧ tag = JsonType.Reference) ∨
        (starts_with r def_refstr = false ∧ ∃ t, Property.type self = Except.ok t ∧
          tag = if t = "object" then JsonType.Object
                else if t = "array" then JsonType.Array else JsonType.Primitive)) := by
  rw [Property.Print] at h
  split at h
  · cases h
  split at h
  · cases h
  · rename_i hisref
    obtain ⟨r, hr, hb⟩ := IsReference_ok self true hisref
    split at h
    · cases h
    simp only [Except.ok.injEq, Prod.mk.injEq] at h
    exact ⟨r, hr, Or.inl ⟨hb, h.1.symm⟩⟩
  · rename_i hisref
    obtain ⟨r, hr, hb⟩ := IsReference_ok self false hisref
    refine ⟨r, hr, Or.inr ⟨hb, ?_⟩⟩
    split at h
    · cases h
    rename_i t hty
    refine ⟨t, hty, ?_⟩
    split at h
    · rename_i hobj
      rw [if_pos hobj]
      split at h
      · cases h
      dsimp only at h
      split at h
      · cases h
      simp only [Except.ok.injEq, Prod.mk.injEq] at h
      exact h.1.symm
    rename_i hobj
    rw [if_neg hobj]
    split at h
    · rename_i harr
      rw [if_pos harr]
      split at h
      · cases h
      split at h
      · cases h
      · split at h
        · cases h
        · simp only [Except.ok.injEq, Prod.mk.injEq] at h
          exact h.1.symm
      · split at h
        · cases h
        split at h
        · split at h <;>
          · simp only [Except.ok.injEq, Prod.mk.injEq] at h
            exact h.1.symm
        split at h
        · simp only [Except.ok.injEq, Prod.mk.injEq] at h
          exact h.1.symm
        dsimp only at h
        split at h
        · cases h
        split at h <;>
        · simp only [Except.ok.injEq, Prod.mk.injEq] at h
          exact h.1.symm
    · rename_i harr
      rw [if_neg harr]
      simp only [Except.ok.injEq, Prod.mk.injEq] at h
      exact h.1.symm

theorem starts_with_def_refstr_ne_empty (r : String)
    (h : starts_with r def_refstr = true) : r ≠ "" := by
  intro hr
  subst hr
  exact absurd h (by decide)

theorem Print_object_properties_error (u : Util) (self : Property)
    (out name_ indent d r : String) (f : Fault)
    (hd : Property.description self = Except.ok d)
    (hr : Property.reference self = Except.ok r)
    (hnr : starts_with r def_refstr = false)
    (ht : Property.type self = Except.ok "object")
    (hp : Property.properties self = Except.error f) :
    Property.Print u self out name_ indent = Except.error f := by
  rw [Property.Print]
  simp only [hd, Property.IsReference, hr, hnr, ht, if_true]
  split
  · rename_i f1 hf
    rw [hp] at hf
    cases hf
    rfl
  · rename_i props1 hp1
    rw [hp] at hp1
    cases hp1

theorem Print_properties_cons_ok (u : Util) (k : String) (v : Json)
    (rest : List (String × Json)) (out indent : String) (tag : JsonType) (o1 i1 : String)
    (h : Property.Print u (OpenAPIObject.of_element v) out k indent = Except.ok (tag, o1, i1)) :
    Print_properties u ((k, v) :: rest) out indent =
      Print_properties u rest
        (if tag = JsonType.Object then o1 ++ i1 ++ u.sanitize k ++ " " ++ k ++ "_;\n" else o1)
        i1 := by
  rw [Print_properties_cons, h]

theorem Print_object_ok (u : Util) (self : Property) (out name_ indent d r : String)
    (props : MapAdaptor) (o1 i1 : String)
    (hd : Property.description self = Except.ok d)
    (hr : Property.reference self = Except.ok r)
    (hnr : starts_with r def_refstr = false)
    (ht : Property.type self = Except.ok "object")
    (hp : Property.properties self = Except.ok props)
    (hl : Print_properties u props.fields
        (out ++ u.write_multiline_comment d indent ++ indent ++ "struct "
          ++ u.sanitize name_ ++ " \x7b\n") (push_back indent '\t') = Except.ok (o1, i1)) :
    Property.Print u self out name_ indent =
      Except.ok (JsonType.Object, o1 ++ pop_back i1 ++ "\x7d;\n", pop_back i1) := by
  rw [Print_object u self out name_ indent d r props hd hr hnr ht hp, hl]

theorem Print_properties_cons_error (u : Util) (k : String) (v : Json)
    (rest : List (String × Json)) (out indent : String) (f : Fault)
    (h : Property.Print u (OpenAPIObject.of_element v) out k indent = Except.error f) :
    Print_properties u ((k, v) :: rest) out indent = Except.error f := by
  rw [Print_properties_cons, h]

theorem Print_object_error (u : Util) (self : Property) (out name_ indent d r : String)
    (props : MapAdaptor) (f : Fault)
    (hd : Property.description self = Except.ok d)
    (hr : Property.reference self = Except.ok r)
    (hnr : starts_with r def_refstr = false)
    (ht : Property.type self = Except.ok "object")
    (hp : Property.properties self = Except.ok props)
    (hl : Print_properties u props.fields
        (out ++ u.write_multiline_comment d indent ++ indent ++ "struct "
          ++ u.sanitize name_ ++ " \x7b\n") (push_back indent '\t') = Except.error f) :
    Property.Print u self out name_ indent = Except.error f := by
  rw [Print_object u self out name_ indent d r props hd hr hnr ht hp, hl]

/-! ## The reference resolver (C1) -/

theorem starts_with_append (p x : String) : starts_with (p ++ x) p = true := by
  simp [starts_with, String.data_append]

theorem remove_prefix_append (p x : String) : remove_prefix (p ++ x) p.length = x := by
  obtain ⟨pd⟩ := p
  obtain ⟨xd⟩ := x
  show String.mk ((pd ++ xd).drop pd.length) = String.mk xd
  rw [List.drop_left]

theorem first_named_entries (table : List (String × Json)) (X : String) :
    (X ∈ table.map Prod.fst →
      ∃ pre v post, table = pre ++ (X, v) :: post ∧ X ∉ pre.map Prod.fst ∧
        first_named (MapAdaptor.of_object table).entries X = OpenAPIObject.of_element v) ∧
    (X ∉ table.map Prod.fst →
      first_named (MapAdaptor.of_object table).entries X = OpenAPIObject.default) := by
  induction table with
  | nil =>
    simp [MapAdaptor.entries, MapAdaptor.fields, MapAdaptor.of_object, first_named]
  | cons kv rest ih =>
    obtain ⟨k, w⟩ := kv
    have hcons : first_named (MapAdaptor.of_object ((k, w) :: rest)).entries X =
        if k = X then OpenAPIObject.of_element w
        else first_named (MapAdaptor.of_object rest).entries X := by
      simp [MapAdaptor.entries, MapAdaptor.fields, MapAdaptor.of_object, first_named]
    by_cases hk : k = X
    · subst hk
      constructor
      · intro _
        exact ⟨[], w, rest, rfl, by simp, by rw [hcons]; simp⟩
      · intro h
        simp at h
    · constructor
      · intro h
        have hin : X ∈ rest.map Prod.fst := by
          simp only [List.map_cons, List.mem_cons] at h
          rcases h with h | h
          · exact absurd h.symm hk
          · exact h
        obtain ⟨pre, v, post, h1, h2, h3⟩ := ih.1 hin
        refine ⟨(k, w) :: pre, v, post, by rw [h1]; rfl, ?_, ?_⟩
        · simp only [List.map_cons, List.mem_cons, not_or]
          exact ⟨fun h => hk h.symm, h2⟩
        · rw [hcons, if_neg hk, h3]
      · intro h
        have hnin : X ∉ rest.map Prod.fst := by
          intro hin
          exact h (by simp only [List.map_cons, List.mem_cons]; exact Or.inr hin)
        rw [hcons, if_neg hk, ih.2 hnin]

/-- C1: for every document whose `definitions` member is a table and every
name `X`, `GetDefinedSchemaByReference("#/definitions/" + X)` returns, when
`X` is a key of the table, the view of the first entry in document order
whose key equals `X` exactly, and, when `X` is not a key, the empty
(invalid) `Property` view. -/
theorem C1_resolve_first_exact_match (doc : OpenAPI2) (table : List (String × Json))
    (X : String) (h : OpenAPI2.definitions doc = Except.ok (MapAdaptor.of_object table)) :
    (X ∈ table.map Prod.fst →
      ∃ pre v post, table = pre ++ (X, v) :: post ∧ X ∉ pre.map Prod.fst ∧
        OpenAPI2.GetDefinedSchemaByReference doc (def_refstr ++ X)
          = Except.ok (OpenAPIObject.of_element v)) ∧
    (X ∉ table.map Prod.fst →
      OpenAPI2.GetDefinedSchemaByReference doc (def_refstr ++ X)
        = Except.ok OpenAPIObject.default) ∧
    OpenAPIObject.default._is_valid = false := by
  have hget : OpenAPI2.GetDefinedSchemaByReference doc (def_refstr ++ X)
      = Except.ok (first_named (MapAdaptor.of_object table).entries X) := by
    simp only [OpenAPI2.GetDefinedSchemaByReference, starts_with_append, remove_prefix_append,
      if_true, h]
  refine ⟨fun hin => ?_, fun hnin => ?_, rfl⟩
  · obtain ⟨pre, v, post, h1, h2, h3⟩ := (first_named_entries table X).1 hin
    exact ⟨pre, v, post, h1, h2, by rw [hget, h3]⟩
  · rw [hget, (first_named_entries table X).2 hnin]

/-- C1 at `pet_document`: `"#/definitions/Pet"` resolves to the first of the
two entries named `Pet`, not to `pet`. -/
theorem C1_resolve_witness :
    OpenAPI2.definitions pet_document = Except.ok (MapAdaptor.of_object pet_table) ∧
    OpenAPI2.GetDefinedSchemaByReference pet_document (def_refstr ++ "Pet")
      = Except.ok (OpenAPIObject.of_element (Json.bool true)) ∧
    OpenAPI2.GetDefinedSchemaByReference pet_document (def_refstr ++ "PET")
      = Except.ok OpenAPIObject.default := by
  have h := C1_resolve_first_exact_match pet_document pet_table
  refine ⟨rfl, rfl, ?_⟩
  exact (h "PET" rfl).2.1 (by decide)

/-! ## Method utilities (C2, C3, C4) -/

theorem RequestMethodFromString_unknown (key : String)
    (c1 : ¬(key = "post" ∨ key = "POST")) (c2 : ¬(key = "put" ∨ key = "PUT"))
    (c3 : ¬(key = "get" ∨ key = "GET")) (c4 : ¬(key = "delete" ∨ key = "DELETE"))
    (c5 : ¬(key = "patch" ∨ key = "PATCH")) (c6 : ¬(key = "head" ∨ key = "HEAD"))
    (c7 : ¬(key = "connect" ∨ key = "CONNECT")) (c8 : ¬(key = "options" ∨ key = "OPTIONS"))
    (c9 : ¬(key = "trace" ∨ key = "TRACE")) :
    RequestMethodFromString key = RequestMethod.UNKNOWN := by
  unfold RequestMethodFromString
  rw [if_neg c1, if_neg c2, if_neg c3, if_neg c4, if_neg c5, if_neg c6, if_neg c7, if_neg c8,
    if_neg c9]

theorem RequestMethodFromString_eq_iff (key : String) (v : RequestMethod)
    (hv : v ≠ RequestMethod.UNKNOWN) :
    RequestMethodFromString key = v ↔
      key = RequestMethodToString v ∨ key = upper (RequestMethodToString v) := by
  by_cases c1 : key = "post" ∨ key = "POST"
  · rcases c1 with c | c <;> subst c <;> cases v <;> first | exact absurd rfl hv | decide
  by_cases c2 : key = "put" ∨ key = "PUT"
  · rcases c2 with c | c <;> subst c <;> cases v <;> first | exact absurd rfl hv | decide
  by_cases c3 : key = "get" ∨ key = "GET"
  · rcases c3 with c | c <;> subst c <;> cases v <;> first | exact absurd rfl hv | decide
  by_cases c4 : key = "delete" ∨ key = "DELETE"
  · rcases c4 with c | c <;> subst c <;> cases v <;> first | exact absurd rfl hv | decide
  by_cases c5 : key = "patch" ∨ key = "PATCH"
  · rcases c5 with c | c <;> subst c <;> cases v <;> first | exact absurd rfl hv | decide
  by_cases c6 : key = "head" ∨ key = "HEAD"
  · rcases c6 with c | c <;> subst c <;> cases v <;> first | exact absurd rfl hv | decide
  by_cases c7 : key = "connect" ∨ key = "CONNECT"
  · rcases c7 with c | c <;> subst c <;> cases v <;> first | exact absurd rfl hv | decide
  by_cases c8 : key = "options" ∨ key = "OPTIONS"
  · rcases c8 with c | c <;> subst c <;> cases v <;> first | exact absurd rfl hv | decide
  by_cases c9 : key = "trace" ∨ key = "TRACE"
  · rcases c9 with c | c <;> subst c <;> cases v <;> first | exact absurd rfl hv | decide
  rw [RequestMethodFromString_unknown key c1 c2 c3 c4 c5 c6 c7 c8 c9]
  have hu : upper "post" = "POST" ∧ upper "put" = "PUT" ∧ upper "get" = "GET" ∧
      upper "delete" = "DELETE" ∧ upper "patch" = "PATCH" ∧ upper "head" = "HEAD" ∧
      upper "connect" = "CONNECT" ∧ upper "options" = "OPTIONS" ∧
      upper "trace" = "TRACE" := by decide
  obtain ⟨h1, h2, h3, h4, h5, h6, h7, h8, h9⟩ := hu
  constructor
  · intro h
    exact absurd h.symm hv
  · intro h
    cases v <;> simp only [RequestMethodToString, h1, h2, h3, h4, h5, h6, h7, h8, h9] at h
    all_goals first
      | exact absurd rfl hv
      | exact absurd h c1 | exact absurd h c2 | exact absurd h c3 | exact absurd h c4
      | exact absurd h c5 | exact absurd h c6 | exact absurd h c7 | exact absurd h c8
      | exact absurd h c9
/-- C2 (as the claim states it, refuted): the mixed-case spellings `"Put"`
and `"gEt"` equal the tokens of PUT and GET up to letter case, and
`RequestMethodFromString` maps both to UNKNOWN. -/
theorem C2_mixed_case_is_unknown :
    equal_up_to_case "Put" (RequestMethodToString RequestMethod.PUT) = true ∧
    RequestMethodFromString "Put" ≠ RequestMethod.PUT ∧
    RequestMethodFromString "Put" = RequestMethod.UNKNOWN ∧
    equal_up_to_case "gEt" (RequestMethodToString RequestMethod.GET) = true ∧
    RequestMethodFromString "gEt" ≠ RequestMethod.GET ∧
    RequestMethodFromString "gEt" = RequestMethod.UNKNOWN := by
  decide

/-- C2 (amended): `RequestMethodFromString` recognises each of the nine
verbs in exactly two spellings, the all-lowercase token and the
all-uppercase token; no other spelling gives that verb. -/
theorem C2_exactly_two_spellings (key : String) (v : RequestMethod)
    (hv : v ≠ RequestMethod.UNKNOWN) :
    RequestMethodFromString key = v ↔
      key = RequestMethodToString v ∨ key = upper (RequestMethodToString v) :=
  RequestMethodFromString_eq_iff key v hv

/-- C2 (amended) at the verb DELETE and the token `"DELETE"`. -/
theorem C2_exactly_two_spellings_witness :
    RequestMethod.DELETE ≠ RequestMethod.UNKNOWN ∧
    (RequestMethodFromString "DELETE" = RequestMethod.DELETE ↔
      "DELETE" = RequestMethodToString RequestMethod.DELETE ∨
      "DELETE" = upper (RequestMethodToString RequestMethod.DELETE)) :=
  ⟨by decide, C2_exactly_two_spellings "DELETE" RequestMethod.DELETE (by decide)⟩

/-- C3: `RequestMethodFromString` is total; for each of the nine verbs it
maps the all-lowercase and the all-uppercase token to that verb (`"PUT"` and
`"put"` both give PUT); every token that is not a spelling of one of the nine
verbs, not even up to letter case, gives UNKNOWN, as do `"fetch"` and the
empty string. -/
theorem C3_lower_upper_else_unknown :
    (∀ key : String, ∃ v : RequestMethod, RequestMethodFromString key = v) ∧
    (∀ v : RequestMethod, v ≠ RequestMethod.UNKNOWN →
      RequestMethodFromString (RequestMethodToString v) = v ∧
      RequestMethodFromString (upper (RequestMethodToString v)) = v) ∧
    (∀ key : String,
      (∀ v : RequestMethod, v ≠ RequestMethod.UNKNOWN →
        equal_up_to_case key (RequestMethodToString v) = false) →
      RequestMethodFromString key = RequestMethod.UNKNOWN) ∧
    (∀ key : String,
      (∀ v : RequestMethod, v ≠ RequestMethod.UNKNOWN →
        key ≠ RequestMethodToString v ∧ key ≠ upper (RequestMethodToString v)) →
      RequestMethodFromString key = RequestMethod.UNKNOWN) ∧
    RequestMethodFromString "PUT" = RequestMethod.PUT ∧
    RequestMethodFromString "put" = RequestMethod.PUT ∧
    RequestMethodFromString "fetch" = RequestMethod.UNKNOWN ∧
    RequestMethodFromString "" = RequestMethod.UNKNOWN := by
  refine ⟨fun key => ⟨_, rfl⟩, ?_, ?_, ?_, by decide, by decide, by decide, by decide⟩
  · intro v hv
    cases v <;> first | exact absurd rfl hv | decide
  rotate_left
  · intro key h
    by_contra hne
    have hk := (RequestMethodFromString_eq_iff key _ hne).1 rfl
    have hn := h _ hne
    rcases hk with hk | hk
    · exact hn.1 hk
    · exact hn.2 hk
  · intro key h
    apply RequestMethodFromString_unknown
    · rintro (c | c) <;> subst c <;> exact absurd (h RequestMethod.POST (by decide)) (by decide)
    · rintro (c | c) <;> subst c <;> exact absurd (h RequestMethod.PUT (by decide)) (by decide)
    · rintro (c | c) <;> subst c <;> exact absurd (h RequestMethod.GET (by decide)) (by decide)
    · rintro (c | c) <;> subst c <;>
        exact absurd (h RequestMethod.DELETE (by decide)) (by decide)
    · rintro (c | c) <;> subst c <;> exact absurd (h RequestMethod.PATCH (by decide)) (by decide)
    · rintro (c | c) <;> subst c <;> exact absurd (h RequestMethod.HEAD (by decide)) (by decide)
    · rintro (c | c) <;> subst c <;>
        exact absurd (h RequestMethod.CONNECT (by decide)) (by decide)
    · rintro (c | c) <;> subst c <;>
        exact absurd (h RequestMethod.OPTIONS (by decide)) (by decide)
    · rintro (c | c) <;> subst c <;> exact absurd (h RequestMethod.TRACE (by decide)) (by decide)

/-- C4: `RequestMethodToString` is inverted by `RequestMethodFromString` on
all ten values, UNKNOWN included; the ten tokens are pairwise distinct,
non-empty and made of lowercase letters only. -/
theorem C4_to_string_inverse :
    (∀ v : RequestMethod, RequestMethodFromString (RequestMethodToString v) = v) ∧
    (∀ v w : RequestMethod, RequestMethodToString v = RequestMethodToString w → v = w) ∧
    (∀ v : RequestMethod, RequestMethodToString v ≠ "" ∧
      ∀ c ∈ (RequestMethodToString v).data, c.isLower = true) := by
  refine ⟨?_, ?_, ?_⟩
  · intro v
    cases v <;> decide
  · intro v w
    cases v <;> cases w <;> decide
  · intro v
    cases v <;> decide

/-! ## The primitive type table (C5) -/

/-- C5: `JsonTypeToCppType` is the fixed table, for every pair of strings:
`"string"` gives `std::string`; `"number"` gives `double` for format
`"double"` and `float` otherwise; `"boolean"` gives `bool`; `"integer"` gives
`int64_t` for format `"int64"` and `int32_t` otherwise; every other type
string, `"object"`, `"array"` and the empty string included, gives `void*`. -/
theorem C5_type_table (type format : String) :
    (type = "string" → JsonTypeToCppType type format = "std::string") ∧
    (type = "number" → format = "double" → JsonTypeToCppType type format = "double") ∧
    (type = "number" → format ≠ "double" → JsonTypeToCppType type format = "float") ∧
    (type = "boolean" → JsonTypeToCppType type format = "bool") ∧
    (type = "integer" → format = "int64" → JsonTypeToCppType type format = "int64_t") ∧
    (type = "integer" → format ≠ "int64" → JsonTypeToCppType type format = "int32_t") ∧
    (type ≠ "string" → type ≠ "number" → type ≠ "boolean" → type ≠ "integer" →
      JsonTypeToCppType type format = "void*") ∧
    JsonTypeToCppType "object" format = "void*" ∧
    JsonTypeToCppType "array" format = "void*" ∧
    JsonTypeToCppType "" format = "void*" := by
  refine ⟨?_, ?_, ?_, ?_, ?_, ?_, ?_, ?_, ?_, ?_⟩
  · intro h
    subst h
    rfl
  · intro h hf
    subst h
    subst hf
    rfl
  · intro h hf
    subst h
    unfold JsonTypeToCppType
    rw [if_neg (by decide), if_pos rfl, if_neg hf]
  · intro h
    subst h
    rfl
  · intro h hf
    subst h
    subst hf
    rfl
  · intro h hf
    subst h
    unfold JsonTypeToCppType
    rw [if_neg (by decide), if_neg (by decide), if_neg (by decide), if_pos rfl, if_neg hf]
  · intro h1 h2 h3 h4
    unfold JsonTypeToCppType
    rw [if_neg h1, if_neg h2, if_neg h3, if_neg h4]
  · rfl
  · rfl
  · rfl

/-- C5 at concrete pairs: the table's rows, one by one. -/
theorem C5_type_table_witness :
    JsonTypeToCppType "string" "date-time" = "std::string" ∧
    JsonTypeToCppType "number" "double" = "double" ∧
    JsonTypeToCppType "number" "" = "float" ∧
    JsonTypeToCppType "boolean" "" = "bool" ∧
    JsonTypeToCppType "integer" "int64" = "int64_t" ∧
    JsonTypeToCppType "integer" "int32" = "int32_t" ∧
    JsonTypeToCppType "file" "" = "void*" :=
  ⟨(C5_type_table "string" "date-time").1 rfl,
    (C5_type_table "number" "double").2.1 rfl rfl,
    (C5_type_table "number" "").2.2.1 rfl (by decide),
    (C5_type_table "boolean" "").2.2.2.1 rfl,
    (C5_type_table "integer" "int64").2.2.2.2.1 rfl rfl,
    (C5_type_table "integer" "int32").2.2.2.2.2.1 rfl (by decide),
    (C5_type_table "file" "").2.2.2.2.2.2.1 (by decide) (by decide) (by decide) (by decide)⟩

/-! ## Classification and the reference branch of `Print` (C6, C7) -/

/-- C6 (as the claim states it, refuted): the node `{"type": ["string",
"null"]}` is no reference and its type is neither `"object"` nor `"array"`,
yet `Print` does not return Primitive: reading `type` raises. Likewise the
non-reference node `{"description": 5, "type": "string"}`: reading
`description` raises. -/
theorem C6_wrong_shape_raises :
    Property.reference (OpenAPIObject.of_element
      (Json.object [("type", Json.array [Json.string "string", Json.string "null"])]))
      = Except.ok "" ∧
    starts_with "" def_refstr = false ∧
    Property.Print sample_util (OpenAPIObject.of_element
        (Json.object [("type", Json.array [Json.string "string", Json.string "null"])]))
        "" "x" ""
      = Except.error (Fault.simdjson_error error_code.INCORRECT_TYPE) ∧
    Property.reference (OpenAPIObject.of_element
      (Json.object [("description", Json.int64 5), ("type", Json.string "string")]))
      = Except.ok "" ∧
    Property.type (OpenAPIObject.of_element
      (Json.object [("description", Json.int64 5), ("type", Json.string "string")]))
      = Except.ok "string" ∧
    Property.Print sample_util (OpenAPIObject.of_element
        (Json.object [("description", Json.int64 5), ("type", Json.string "string")]))
        "" "x" ""
      = Except.error (Fault.simdjson_error error_code.INCORRECT_TYPE) :=
  ⟨rfl, rfl, Print_type_error sample_util _ "" "x" "" "" "" _ rfl rfl rfl rfl,
    rfl, rfl, Print_description_error sample_util _ "" "x" "" _ rfl⟩

/-- C6 (amended): on every well-shaped schema node (the node, the values
of its `properties`, its `items`, and so on downwards, each have
`description`, `$ref` and `type` absent or strings, `properties` absent or
an object, and `items` present when the type is `"array"`), `Print` returns
a tag, and the tag is Reference when the `$ref` string starts with
`"#/definitions/"`, otherwise Object when `type` is exactly `"object"`,
Array when it is exactly `"array"`, and Primitive in every other case. On
every node, whenever `Print` returns, the tag is Reference if and only if
the `$ref` string is non-empty and starts with `"#/definitions/"`, and for a
non-reference node it is Object, Array or Primitive by the same rule; a node
whose `$ref` starts with the prefix and whose `description` is readable
gets Reference whatever `type`, `properties` or `items` it carries. -/
theorem C6_print_tag (u : Util) (self : Property) (out name_ indent : String) :
    (∀ j b, self = ⟨some j, b⟩ → tidy j = true →
      ∃ r t o i, Property.reference self = Except.ok r ∧
        Property.type self = Except.ok t ∧
        Property.Print u self out name_ indent =
          Except.ok
            (if starts_with r def_refstr = true then JsonType.Reference
              else if t = "object" then JsonType.Object
              else if t = "array" then JsonType.Array else JsonType.Primitive, o, i)) ∧
    (∀ tag o i, Property.Print u self out name_ indent = Except.ok (tag, o, i) →
      ∃ r, Property.reference self = Except.ok r ∧
        (tag = JsonType.Reference ↔ (r ≠ "" ∧ starts_with r def_refstr = true)) ∧
        (starts_with r def_refstr = false →
          ∃ t, Property.type self = Except.ok t ∧
            tag = if t = "object" then JsonType.Object
                  else if t = "array" then JsonType.Array else JsonType.Primitive)) ∧
    (∀ d r, Property.description self = Except.ok d →
      Property.reference self = Except.ok r → starts_with r def_refstr = true →
      ∃ o i, Property.Print u self out name_ indent = Except.ok (JsonType.Reference, o, i)) := by
  refine ⟨?_, ?_, ?_⟩
  · intro j b hself ht
    obtain ⟨⟨tag, o, i⟩, hres⟩ := (Print_total u).1 self j b hself ht out name_ indent
    obtain ⟨r, hr, hcase⟩ := Print_tag u self out name_ indent tag o i hres
    subst hself
    obtain ⟨_, _, ⟨t, hty⟩⟩ := tidy_reads j b ht
    refine ⟨r, t, o, i, hr, hty, ?_⟩
    rcases hcase with ⟨hb, htag⟩ | ⟨hb, t', hty', htag⟩
    · rw [hres, if_pos hb, htag]
    · rw [hty] at hty'
      injection hty' with hty'
      subst hty'
      rw [hres, if_neg (by rw [hb]; decide), htag]
  · intro tag o i h
    obtain ⟨r, hr, hcase⟩ := Print_tag u self out name_ indent tag o i h
    refine ⟨r, hr, ?_, ?_⟩
    · rcases hcase with ⟨hb, htag⟩ | ⟨hb, t, _, htag⟩
      · exact ⟨fun _ => ⟨starts_with_def_refstr_ne_empty r hb, hb⟩, fun _ => htag⟩
      · constructor
        · intro href
          rw [href] at htag
          split_ifs at htag
        · intro hpre
          rw [hpre.2] at hb
          cases hb
    · intro hnr
      rcases hcase with ⟨hb, _⟩ | ⟨_, t, hty, htag⟩
      · rw [hnr] at hb
        cases hb
      · exact ⟨t, hty, htag⟩
  · intro d r hd hr hpre
    exact ⟨_, _, Print_reference u self out name_ indent d r hd hr hpre⟩

/-- C6 (amended) on concrete nodes: Scenario A is well shaped and gets
Object; so does a schema with a property that is itself named `type`; a
node with both `$ref` and `type` gets Reference. -/
theorem C6_print_tag_witness :
    tidy scenarioA = true ∧
    (∃ o i, Property.Print sample_util (OpenAPIObject.of_element scenarioA) "" "Pet" ""
      = Except.ok (JsonType.Object, o, i)) ∧
    tidy api_response_node = true ∧
    (∃ o i, Property.Print sample_util (OpenAPIObject.of_element api_response_node)
        "" "ApiResponse" ""
      = Except.ok (JsonType.Object, o, i)) ∧
    (∃ o i, Property.Print sample_util (OpenAPIObject.of_element
        (Json.object [("$ref", Json.string "#/definitions/Pet"),
          ("type", Json.string "object")])) "" "pet" ""
      = Except.ok (JsonType.Reference, o, i)) := by
  have hA := C6_print_tag sample_util (OpenAPIObject.of_element scenarioA) "" "Pet" ""
  have hB := C6_print_tag sample_util (OpenAPIObject.of_element api_response_node)
    "" "ApiResponse" ""
  refine ⟨by decide, ?_, by decide, ?_, ?_⟩
  · obtain ⟨r, t, o, i, hr, ht, hres⟩ := hA.1 scenarioA true rfl (by decide)
    have hr' : r = "" := (Except.ok.inj hr).symm
    have ht' : t = "object" := (Except.ok.inj ht).symm
    subst hr'
    subst ht'
    exact ⟨o, i, hres⟩
  · obtain ⟨r, t, o, i, hr, ht, hres⟩ := hB.1 api_response_node true rfl (by decide)
    have hr' : r = "" := (Except.ok.inj hr).symm
    have ht' : t = "object" := (Except.ok.inj ht).symm
    subst hr'
    subst ht'
    exact ⟨o, i, hres⟩
  · exact (C6_print_tag sample_util _ "" "pet" "").2.2 "" "#/definitions/Pet" rfl rfl rfl

/-- C7 (as the claim states it, refuted): on the reference node
`{"description": 5, "$ref": "#/definitions/Pet"}` `Print` writes no
declaration line: reading `description` raises first. -/
theorem C7_description_raises :
    Property.reference (OpenAPIObject.of_element
      (Json.object [("description", Json.int64 5),
        ("$ref", Json.string "#/definitions/Pet")]))
      = Except.ok "#/definitions/Pet" ∧
    starts_with "#/definitions/Pet" def_refstr = true ∧
    Property.Print sample_util (OpenAPIObject.of_element
        (Json.object [("description", Json.int64 5),
          ("$ref", Json.string "#/definitions/Pet")])) "" "pet" ""
      = Except.error (Fault.simdjson_error error_code.INCORRECT_TYPE) :=
  ⟨rfl, rfl, Print_description_error sample_util _ "" "pet" "" _ rfl⟩

/-- C7 (amended): for every reference node whose `description` is absent or
a string, `Print` appends to the stream the description comment and then
exactly one line, `<indent><name> obj;`, where `<name>` is the `$ref`
string with the `"#/definitions/"` prefix removed; it returns Reference and
leaves the indent unchanged. The definitions table is no argument of
`Print`, and the result depends on the node only through its `description`
and `$ref`: whatever `properties`, `items` or `type` the node carries, and
whatever the target name, the text is the same. -/
theorem C7_reference_line (u : Util) (self : Property) (out name_ indent d r : String)
    (hd : Property.description self = Except.ok d)
    (hr : Property.reference self = Except.ok r)
    (hpre : starts_with r def_refstr = true) :
    Property.Print u self out name_ indent =
      Except.ok (JsonType.Reference,
        out ++ u.write_multiline_comment d indent
          ++ (indent ++ remove_prefix r def_refstr.length ++ " obj;\n"), indent) ∧
    def_refstr ++ remove_prefix r def_refstr.length = r ∧
    (∀ (other : Property) (name' : String),
      Property.description other = Except.ok d →
      Property.reference other = Except.ok r →
      Property.Print u other out name' indent = Property.Print u self out name_ indent) := by
  have hmain := Print_reference u self out name_ indent d r hd hr hpre
  refine ⟨?_, ?_, ?_⟩
  · rw [hmain]
    simp only [String.append_assoc]
  · unfold starts_with at hpre
    obtain ⟨t, ht⟩ := List.isPrefixOf_iff_prefix.1 hpre
    apply String.ext
    simp only [String.data_append, remove_prefix, String.length]
    rw [← ht, List.drop_left]
  · intro other name' hd' hr'
    rw [hmain, Print_reference u other out name' indent d r hd' hr' hpre]

/-- C7 (amended) on `pet_reference_node` at one tab of indent. -/
theorem C7_reference_line_witness :
    Property.Print sample_util (OpenAPIObject.of_element pet_reference_node)
        "struct Owner \x7b\n" "pet" "\t"
      = Except.ok (JsonType.Reference, "struct Owner \x7b\n\tPet obj;\n", "\t") :=
  (C7_reference_line sample_util (OpenAPIObject.of_element pet_reference_node)
    "struct Owner \x7b\n" "pet" "\t" "a pet" "#/definitions/Pet" rfl rfl rfl).1

/-! ## The object branch of `Print` (C8) -/

/-- C9 (the code at the failing inputs): for the nodes `{"type": "number",
"format": "double"}` and `{"type": "integer", "format": "int64"}` the table
gives `double` and `int64_t`, but `Print` declares the field `float x;`
and `int32_t x;`: it passes only the type to `JsonTypeToCppType`. -/
theorem C9_scalar_format_dropped (u : Util) :
    JsonTypeToCppType "number" "double" = "double" ∧
    JsonTypeToCppType "integer" "int64" = "int64_t" ∧
    Property.format (OpenAPIObject.of_element
      (Json.object [("type", Json.string "number"), ("format", Json.string "double")]))
      = Except.ok "double" ∧
    Property.Print u (OpenAPIObject.of_element
        (Json.object [("type", Json.string "number"), ("format", Json.string "double")]))
        "" "x" ""
      = Except.ok (JsonType.Primitive,
          "" ++ u.write_multiline_comment "" "" ++ "" ++ "float" ++ " " ++ u.sanitize "x"
            ++ ";\n", "") ∧
    Property.Print u (OpenAPIObject.of_element
        (Json.object [("type", Json.string "integer"), ("format", Json.string "int64")]))
        "" "x" ""
      = Except.ok (JsonType.Primitive,
          "" ++ u.write_multiline_comment "" "" ++ "" ++ "int32_t" ++ " " ++ u.sanitize "x"
            ++ ";\n", "") ∧
    Property.Print sample_util (OpenAPIObject.of_element
        (Json.object [("type", Json.string "number"), ("format", Json.string "double")]))
        "" "x" ""
      = Except.ok (JsonType.Primitive, "float x;\n", "") :=
  ⟨rfl, rfl, rfl,
    Print_primitive u _ "" "x" "" "" "" "number" rfl rfl rfl rfl (by decide) (by decide),
    Print_primitive u _ "" "x" "" "" "" "integer" rfl rfl rfl rfl (by decide) (by decide),
    Print_primitive sample_util _ "" "x" "" "" "" "number" rfl rfl rfl rfl (by decide)
      (by decide)⟩

/-- C10 (the code at the failing input): for the array node `{"type":
"array", "items": {"type": "number", "format": "double"}}` the table gives
the item type `double`, but `Print` declares `std::vector<float>`, as an
alias at empty indent and as a field at one tab: it passes only the item's
type to `JsonTypeToCppType`. The tag is Array. -/
theorem C10_sequence_format_dropped (u : Util) :
    JsonTypeToCppType "number" "double" = "double" ∧
    Property.format (OpenAPIObject.of_element
      (Json.object [("type", Json.string "number"), ("format", Json.string "double")]))
      = Except.ok "double" ∧
    Property.Print u (OpenAPIObject.of_element double_array_node) "" "xs" ""
      = Except.ok (JsonType.Array,
          "" ++ u.write_multiline_comment "" "" ++ "" ++ "using " ++ u.sanitize "xs" ++ " = "
            ++ "std::vector<" ++ "float" ++ ">;\n", "") ∧
    Property.Print u (OpenAPIObject.of_element double_array_node) "" "xs" "\t"
      = Except.ok (JsonType.Array,
          "" ++ u.write_multiline_comment "" "\t" ++ "\t" ++ "std::vector<" ++ "float" ++ "> "
            ++ u.sanitize "xs" ++ ";\n", "\t") ∧
    Property.Print sample_util (OpenAPIObject.of_element double_array_node) "" "xs" ""
      = Except.ok (JsonType.Array, "using xs = std::vector<float>;\n", "") :=
  ⟨rfl, rfl,
    Print_array_primitive u (OpenAPIObject.of_element double_array_node)
      (OpenAPIObject.of_element
        (Json.object [("type", Json.string "number"), ("format", Json.string "double")]))
      "" "xs" "" "" "" "" "number" rfl rfl rfl rfl rfl rfl rfl rfl (by decide) (by decide),
    Print_array_primitive u (OpenAPIObject.of_element double_array_node)
      (OpenAPIObject.of_element
        (Json.object [("type", Json.string "number"), ("format", Json.string "double")]))
      "" "xs" "\t" "" "" "" "number" rfl rfl rfl rfl rfl rfl rfl rfl (by decide) (by decide),
    Print_array_primitive sample_util (OpenAPIObject.of_element double_array_node)
      (OpenAPIObject.of_element
        (Json.object [("type", Json.string "number"), ("format", Json.string "double")]))
      "" "xs" "" "" "" "" "number" rfl rfl rfl rfl rfl rfl rfl rfl (by decide) (by decide)⟩

/-! ## Further equations of `Print` -/

theorem Print_object_restored (u : Util) (self : Property) (out name_ indent d r : String)
    (props : MapAdaptor)
    (hd : Property.description self = Except.ok d)
    (hr : Property.reference self = Except.ok r)
    (hnr : starts_with r def_refstr = false)
    (ht : Property.type self = Except.ok "object")
    (hp : Property.properties self = Except.ok props) :
    Property.Print u self out name_ indent =
      (match Print_properties u props.fields
          (out ++ u.write_multiline_comment d indent ++ indent ++ "struct "
            ++ u.sanitize name_ ++ " \x7b\n")
          (push_back indent '\t') with
        | Except.error f => Except.error f
        | Except.ok (out1, _) =>
          Except.ok (JsonType.Object, out1 ++ indent ++ "\x7d;\n", indent)) := by
  rw [Print_object u self out name_ indent d r props hd hr hnr ht hp]
  cases h1 : Print_properties u props.fields
      (out ++ u.write_multiline_comment d indent ++ indent ++ "struct "
        ++ u.sanitize name_ ++ " \x7b\n") (push_back indent '\t') with
  | error f => rfl
  | ok p =>
    obtain ⟨o1, i1⟩ := p
    have hi := (Print_indent u).2 _ _ _ _ _ h1
    subst hi
    simp only [pop_back_push_back]

theorem Print_array_object_restored (u : Util) (self item : Property)
    (out name_ indent d r ri : String)
    (hd : Property.description self = Except.ok d)
    (hr : Property.reference self = Except.ok r)
    (hnr : starts_with r def_refstr = false)
    (ht : Property.type self = Except.ok "array")
    (hi : Property.items self = Except.ok item)
    (hri : Property.reference item = Except.ok ri)
    (hnri : starts_with ri def_refstr = false)
    (hti : Property.type item = Except.ok "object") :
    Property.Print u self out name_ indent =
      (match Property.Print u item (out ++ u.write_multiline_comment d indent)
          (u.sanitize name_ ++ "_") indent with
        | Except.error f => Except.error f
        | Except.ok (_, out1, _) =>
          Except.ok (JsonType.Array,
            if indent.isEmpty then
              out1 ++ indent ++ "using " ++ u.sanitize name_ ++ " = " ++ "std::vector<"
                ++ (u.sanitize name_ ++ "_") ++ ">;\n"
            else
              out1 ++ indent ++ "std::vector<" ++ (u.sanitize name_ ++ "_") ++ "> "
                ++ u.sanitize name_ ++ "_;\n",
            indent)) := by
  rw [Print_array_object u self item out name_ indent d r ri hd hr hnr ht hi hri hnri hti]
  cases h1 : Property.Print u item (out ++ u.write_multiline_comment d indent)
      (u.sanitize name_ ++ "_") indent with
  | error f => rfl
  | ok p =>
    obtain ⟨tag1, o1, i1⟩ := p
    have hi1 := (Print_indent u).1 _ _ _ _ _ _ _ h1
    subst hi1
    rfl

theorem Print_array_object_ok (u : Util) (self item : Property)
    (out name_ indent d r ri : String) (tag1 : JsonType) (o1 i1 : String)
    (hd : Property.description self = Except.ok d)
    (hr : Property.reference self = Except.ok r)
    (hnr : starts_with r def_refstr = false)
    (ht : Property.type self = Except.ok "array")
    (hi : Property.items self = Except.ok item)
    (hri : Property.reference item = Except.ok ri)
    (hnri : starts_with ri def_refstr = false)
    (hti : Property.type item = Except.ok "object")
    (hitem : Property.Print u item (out ++ u.write_multiline_comment d indent)
      (u.sanitize name_ ++ "_") indent = Except.ok (tag1, o1, i1)) :
    Property.Print u self out name_ indent =
      Except.ok (JsonType.Array,
        if indent.isEmpty then
          o1 ++ indent ++ "using " ++ u.sanitize name_ ++ " = " ++ "std::vector<"
            ++ (u.sanitize name_ ++ "_") ++ ">;\n"
        else
          o1 ++ indent ++ "std::vector<" ++ (u.sanitize name_ ++ "_") ++ "> "
            ++ u.sanitize name_ ++ "_;\n",
        indent) := by
  rw [Print_array_object_restored u self item out name_ indent d r ri hd hr hnr ht hi hri hnri
    hti, hitem]

theorem Print_object_no_members (u : Util) (self : Property) (out name_ indent d r : String)
    (props : MapAdaptor)
    (hd : Property.description self = Except.ok d)
    (hr : Property.reference self = Except.ok r)
    (hnr : starts_with r def_refstr = false)
    (ht : Property.type self = Except.ok "object")
    (hp : Property.properties self = Except.ok props)
    (hf : props.fields = []) :
    Property.Print u self out name_ indent =
      Except.ok (JsonType.Object,
        out ++ u.write_multiline_comment d indent ++ indent ++ "struct "
          ++ u.sanitize name_ ++ " \x7b\n" ++ indent ++ "\x7d;\n", indent) := by
  rw [Print_object_restored u self out name_ indent d r props hd hr hnr ht hp, hf,
    Print_properties_nil]

/-! ## Array declarations: placement and object items (C11, C12) -/

theorem id_object_node_nested :
    Property.Print sample_util (OpenAPIObject.of_element id_object_node) "" "pets_" "\t" =
    Except.ok (JsonType.Object, "\tstruct pets_ \x7b\n\t\tint32_t id;\n\t\x7d;\n", "\t") := by
  rw [Print_object_ok sample_util (OpenAPIObject.of_element id_object_node) "" "pets_" "\t" "" ""
    (MapAdaptor.of_object [("id", Json.object [("type", Json.string "integer")])])
    "\tstruct pets_ \x7b\n\t\tint32_t id;\n" "\t\t" rfl rfl rfl rfl rfl]
  · rfl
  · show Print_properties sample_util [("id", Json.object [("type", Json.string "integer")])]
      _ _ = _
    rw [Print_properties_cons_ok sample_util "id" _ _ _ _ _ _ _
      (Print_primitive sample_util
        (OpenAPIObject.of_element (Json.object [("type", Json.string "integer")]))
        _ "id" _ "" "" "integer" rfl rfl rfl rfl (by decide) (by decide)),
      if_neg (by decide), Print_properties_nil]
    rfl

theorem id_object_node_top :
    Property.Print sample_util (OpenAPIObject.of_element id_object_node) "" "pets_" "" =
    Except.ok (JsonType.Object, "struct pets_ \x7b\n\tint32_t id;\n\x7d;\n", "") := by
  rw [Print_object_ok sample_util (OpenAPIObject.of_element id_object_node) "" "pets_" "" "" ""
    (MapAdaptor.of_object [("id", Json.object [("type", Json.string "integer")])])
    "struct pets_ \x7b\n\tint32_t id;\n" "\t" rfl rfl rfl rfl rfl]
  · rfl
  · show Print_properties sample_util [("id", Json.object [("type", Json.string "integer")])]
      _ _ = _
    rw [Print_properties_cons_ok sample_util "id" _ _ _ _ _ _ _
      (Print_primitive sample_util
        (OpenAPIObject.of_element (Json.object [("type", Json.string "integer")]))
        _ "id" _ "" "" "integer" rfl rfl rfl rfl (by decide) (by decide)),
      if_neg (by decide), Print_properties_nil]
    rfl

/-- C11 (the code at the failing input): the array node `{"type": "array",
"items": {"$ref": "#/definitions/Tag"}}` printed under `tags` at one tab of
indent gets the alias `using tags = std::vector<Tag>;` and no field, the
same text as at empty indent but for the tab. At the same indent the two
sibling branches do follow the placement rule: an array of primitives gets
the field `std::vector<float> xs;` and an array of objects the field
`std::vector<pets_> pets_;`, and both get a `using` alias at empty indent. -/
theorem C11_reference_item_always_alias (u : Util) :
    Property.Print u (OpenAPIObject.of_element tag_array_node) "" "tags" "\t"
      = Except.ok (JsonType.Array,
          "" ++ u.write_multiline_comment "" "\t" ++ "\t" ++ "using " ++ u.sanitize "tags"
            ++ " = std::vector<" ++ "Tag" ++ ">;\n", "\t") ∧
    Property.Print sample_util (OpenAPIObject.of_element tag_array_node) "" "tags" "\t"
      = Except.ok (JsonType.Array, "\tusing tags = std::vector<Tag>;\n", "\t") ∧
    Property.Print sample_util (OpenAPIObject.of_element tag_array_node) "" "tags" ""
      = Except.ok (JsonType.Array, "using tags = std::vector<Tag>;\n", "") ∧
    Property.Print sample_util (OpenAPIObject.of_element double_array_node) "" "xs" "\t"
      = Except.ok (JsonType.Array, "\tstd::vector<float> xs;\n", "\t") ∧
    Property.Print sample_util (OpenAPIObject.of_element double_array_node) "" "xs" ""
      = Except.ok (JsonType.Array, "using xs = std::vector<float>;\n", "") ∧
    Property.Print sample_util (OpenAPIObject.of_element object_array_node) "" "pets" "\t"
      = Except.ok (JsonType.Array,
          "\tstruct pets_ \x7b\n\t\tint32_t id;\n\t\x7d;\n\tstd::vector<pets_> pets_;\n", "\t") ∧
    Property.Print sample_util (OpenAPIObject.of_element object_array_node) "" "pets" ""
      = Except.ok (JsonType.Array,
          "struct pets_ \x7b\n\tint32_t id;\n\x7d;\nusing pets = std::vector<pets_>;\n", "") := by
  refine ⟨?_, ?_, ?_, ?_, ?_, ?_, ?_⟩
  · exact Print_array_reference u (OpenAPIObject.of_element tag_array_node)
      (OpenAPIObject.of_element (Json.object [("$ref", Json.string "#/definitions/Tag")]))
      "" "tags" "\t" "" "" "#/definitions/Tag" rfl rfl rfl rfl rfl rfl rfl
  · exact Print_array_reference sample_util (OpenAPIObject.of_element tag_array_node)
      (OpenAPIObject.of_element (Json.object [("$ref", Json.string "#/definitions/Tag")]))
      "" "tags" "\t" "" "" "#/definitions/Tag" rfl rfl rfl rfl rfl rfl rfl
  · exact Print_array_reference sample_util (OpenAPIObject.of_element tag_array_node)
      (OpenAPIObject.of_element (Json.object [("$ref", Json.string "#/definitions/Tag")]))
      "" "tags" "" "" "" "#/definitions/Tag" rfl rfl rfl rfl rfl rfl rfl
  · exact Print_array_primitive sample_util (OpenAPIObject.of_element double_array_node)
      (OpenAPIObject.of_element
        (Json.object [("type", Json.string "number"), ("format", Json.string "double")]))
      "" "xs" "\t" "" "" "" "number" rfl rfl rfl rfl rfl rfl rfl rfl (by decide) (by decide)
  · exact Print_array_primitive sample_util (OpenAPIObject.of_element double_array_node)
      (OpenAPIObject.of_element
        (Json.object [("type", Json.string "number"), ("format", Json.string "double")]))
      "" "xs" "" "" "" "" "number" rfl rfl rfl rfl rfl rfl rfl rfl (by decide) (by decide)
  · exact Print_array_object_ok sample_util (OpenAPIObject.of_element object_array_node)
      (OpenAPIObject.of_element id_object_node) "" "pets" "\t" "" "" "" JsonType.Object
      "\tstruct pets_ \x7b\n\t\tint32_t id;\n\t\x7d;\n" "\t"
      rfl rfl rfl rfl rfl rfl rfl rfl id_object_node_nested
  · exact Print_array_object_ok sample_util (OpenAPIObject.of_element object_array_node)
      (OpenAPIObject.of_element id_object_node) "" "pets" "" "" "" "" JsonType.Object
      "struct pets_ \x7b\n\tint32_t id;\n\x7d;\n" ""
      rfl rfl rfl rfl rfl rfl rfl rfl id_object_node_top

theorem at_key_absent (fields : List (String × Json)) (key : String)
    (h : key ∉ fields.map Prod.fst) :
    at_key fields key = Except.error error_code.NO_SUCH_FIELD := by
  induction fields with
  | nil => rfl
  | cons kv rest ih =>
    obtain ⟨k, w⟩ := kv
    simp only [List.map_cons, List.mem_cons, not_or] at h
    simp only [at_key]
    rw [if_neg (fun hk => h.1 hk.symm)]
    exact ih h.2

theorem index_absent (j : Json) (key : String)
    (h : ∀ fields, j = Json.object fields → key ∉ fields.map Prod.fst) :
    ∃ o c, get_object (some j) = Except.ok o ∧ index o key = Except.error c := by
  cases j with
  | object fields =>
    exact ⟨Except.ok fields, error_code.NO_SUCH_FIELD, rfl, at_key_absent fields key (h fields rfl)⟩
  | _ => exact ⟨Except.error error_code.INCORRECT_TYPE, error_code.INCORRECT_TYPE, rfl, rfl⟩

/-- C13: for every view over a JSON node, object or not, valid or not yet
marked valid, and every key absent from the node, no accessor fails and
each returns the empty sentinel of its type: the empty string for the string
accessors, `false` for the boolean accessor, the invalid child view for the
object accessor, and for the map and list accessors a view whose `size()` is
0, whose `empty()` is true, whose `begin()` equals `end()` and over which a
range-`for` visits nothing. -/
theorem C13_absent_key_sentinels (j : Json) (b : Bool) (key : String)
    (h : ∀ fields, j = Json.object fields → key ∉ fields.map Prod.fst) :
    OpenAPIObject._GetValueIfExist ⟨some j, b⟩ key = Except.ok "" ∧
    OpenAPIObject._GetObjectIfExist_string ⟨some j, b⟩ key = Except.ok "" ∧
    OpenAPIObject._GetValueIfExist_bool ⟨some j, b⟩ key = Except.ok false ∧
    OpenAPIObject._GetObjectIfExist ⟨some j, b⟩ key = Except.ok OpenAPIObject.default ∧
    OpenAPIObject.default._is_valid = false ∧
    (∃ m, OpenAPIObject._GetObjectIfExist_map ⟨some j, b⟩ key = Except.ok m ∧
      m.size = 0 ∧ m.empty = true ∧ m.begin = m.end_ ∧ m.entries = []) ∧
    (∃ l, OpenAPIObject._GetObjectIfExist_list ⟨some j, b⟩ key = Except.ok l ∧
      l.size = 0 ∧ l.empty = true ∧ l.begin = l.end_ ∧ l.elements = []) := by
  obtain ⟨o, c, ho, hc⟩ := index_absent j key h
  refine ⟨?_, ?_, ?_, ?_, rfl, ⟨MapAdaptor.default, ?_, rfl, rfl, rfl, rfl⟩,
    ⟨ListAdaptor.default, ?_, rfl, rfl, rfl, rfl⟩⟩
  · simp only [OpenAPIObject._GetValueIfExist, ho, hc, simdjson_noerror]
    rfl
  · simp only [OpenAPIObject._GetObjectIfExist_string, ho, hc, simdjson_noerror]
    rfl
  · simp only [OpenAPIObject._GetValueIfExist_bool, ho, hc, simdjson_noerror]
    rfl
  · simp only [OpenAPIObject._GetObjectIfExist, ho, hc, simdjson_noerror]
    rfl
  · simp only [OpenAPIObject._GetObjectIfExist_map, ho, hc, simdjson_noerror]
    rfl
  · simp only [OpenAPIObject._GetObjectIfExist_list, ho, hc, simdjson_noerror]
    rfl

/-- C13 on a view over the string `"x"` and on a view over the object
`{"summary": "s"}`, for keys the nodes do not have. -/
theorem C13_absent_key_witness :
    Property.type (OpenAPIObject.of_element (Json.string "x")) = Except.ok "" ∧
    Operation.deprecated (OpenAPIObject.of_element
      (Json.object [("summary", Json.string "s")])) = Except.ok false ∧
    Property.items (OpenAPIObject.of_element
      (Json.object [("summary", Json.string "s")])) = Except.ok OpenAPIObject.default ∧
    (∃ l, Operation.tags (OpenAPIObject.of_element
        (Json.object [("summary", Json.string "s")])) = Except.ok l ∧
      l.size = 0 ∧ l.empty = true ∧ l.begin = l.end_ ∧ l.elements = []) :=
  ⟨(C13_absent_key_sentinels (Json.string "x") true "type"
      (fun fields hf => by cases hf)).1,
    (C13_absent_key_sentinels (Json.object [("summary", Json.string "s")]) true "deprecated"
      (fun fields hf => by cases hf; decide)).2.2.1,
    (C13_absent_key_sentinels (Json.object [("summary", Json.string "s")]) true "items"
      (fun fields hf => by cases hf; decide)).2.2.2.1,
    (C13_absent_key_sentinels (Json.object [("summary", Json.string "s")]) true "tags"
      (fun fields hf => by cases hf; decide)).2.2.2.2.2.2⟩

/-- C14 (as the claim states it, refuted): with `type` a number,
`deprecated` a string, `properties` an array and `tags` an object, the
accessors raise, while with the key absent they return the empty string,
`false` and empty views. -/
theorem C14_wrong_shape_raises :
    Property.type (OpenAPIObject.of_element (Json.object [("type", Json.int64 5)]))
      = Except.error (Fault.simdjson_error error_code.INCORRECT_TYPE) ∧
    Property.type (OpenAPIObject.of_element (Json.object [])) = Except.ok "" ∧
    Operation.deprecated (OpenAPIObject.of_element
      (Json.object [("deprecated", Json.string "yes")]))
      = Except.error (Fault.simdjson_error error_code.INCORRECT_TYPE) ∧
    Operation.deprecated (OpenAPIObject.of_element (Json.object [])) = Except.ok false ∧
    Property.properties (OpenAPIObject.of_element
      (Json.object [("properties", Json.array [])]))
      = Except.error (Fault.simdjson_error error_code.INCORRECT_TYPE) ∧
    Property.properties (OpenAPIObject.of_element (Json.object []))
      = Except.ok MapAdaptor.default ∧
    Operation.tags (OpenAPIObject.of_element (Json.object [("tags", Json.object [])]))
      = Except.error (Fault.simdjson_error error_code.INCORRECT_TYPE) ∧
    Operation.tags (OpenAPIObject.of_element (Json.object []))
      = Except.ok ListAdaptor.default :=
  ⟨rfl, rfl, rfl, rfl, rfl, rfl, rfl, rfl⟩

/-- C14 (amended): a member that is present is read by its shape, not
treated as absent. On a view over an object in which `key` holds `v`: the
string accessors return `v` when it is a string and raise `INCORRECT_TYPE`
otherwise; the boolean accessor does so for booleans, the map accessor for
objects and the list accessor for arrays, a matching value giving a valid
view over it; the object accessor never raises and returns a valid child
view over `v`, whatever its shape. -/
theorem C14_present_key_by_shape (fields : List (String × Json)) (b : Bool)
    (key : String) (v : Json) (hk : at_key fields key = Except.ok v) :
    (∀ s, v = Json.string s →
      OpenAPIObject._GetValueIfExist ⟨some (Json.object fields), b⟩ key = Except.ok s ∧
      OpenAPIObject._GetObjectIfExist_string ⟨some (Json.object fields), b⟩ key
        = Except.ok s) ∧
    ((∀ s, v ≠ Json.string s) →
      OpenAPIObject._GetValueIfExist ⟨some (Json.object fields), b⟩ key
        = Except.error (Fault.simdjson_error error_code.INCORRECT_TYPE) ∧
      OpenAPIObject._GetObjectIfExist_string ⟨some (Json.object fields), b⟩ key
        = Except.error (Fault.simdjson_error error_code.INCORRECT_TYPE)) ∧
    (∀ x, v = Json.bool x →
      OpenAPIObject._GetValueIfExist_bool ⟨some (Json.object fields), b⟩ key = Except.ok x) ∧
    ((∀ x, v ≠ Json.bool x) →
      OpenAPIObject._GetValueIfExist_bool ⟨some (Json.object fields), b⟩ key
        = Except.error (Fault.simdjson_error error_code.INCORRECT_TYPE)) ∧
    (∀ members, v = Json.object members →
      OpenAPIObject._GetObjectIfExist_map ⟨some (Json.object fields), b⟩ key
        = Except.ok (MapAdaptor.of_object members)) ∧
    ((∀ members, v ≠ Json.object members) →
      OpenAPIObject._GetObjectIfExist_map ⟨some (Json.object fields), b⟩ key
        = Except.error (Fault.simdjson_error error_code.INCORRECT_TYPE)) ∧
    (∀ elems, v = Json.array elems →
      OpenAPIObject._GetObjectIfExist_list ⟨some (Json.object fields), b⟩ key
        = Except.ok (ListAdaptor.of_array elems)) ∧
    ((∀ elems, v ≠ Json.array elems) →
      OpenAPIObject._GetObjectIfExist_list ⟨some (Json.object fields), b⟩ key
        = Except.error (Fault.simdjson_error error_code.INCORRECT_TYPE)) ∧
    OpenAPIObject._GetObjectIfExist ⟨some (Json.object fields), b⟩ key
      = Except.ok (OpenAPIObject.of_element v) ∧
    (OpenAPIObject.of_element v)._is_valid = true := by
  refine ⟨?_, ?_, ?_, ?_, ?_, ?_, ?_, ?_, ?_, rfl⟩
  · intro s hs
    subst hs
    simp [OpenAPIObject._GetValueIfExist, OpenAPIObject._GetObjectIfExist_string, get_object,
      index, hk, simdjson_noerror, get_string, value]
  · intro hs
    cases v <;>
      simp [OpenAPIObject._GetValueIfExist, OpenAPIObject._GetObjectIfExist_string, get_object,
        index, hk, simdjson_noerror, get_string, value]
    exact absurd rfl (hs _)
  · intro x hx
    subst hx
    simp [OpenAPIObject._GetValueIfExist_bool, get_object, index, hk, simdjson_noerror,
      get_bool, value]
  · intro hx
    cases v <;>
      simp [OpenAPIObject._GetValueIfExist_bool, get_object, index, hk, simdjson_noerror,
        get_bool, value]
    exact absurd rfl (hx _)
  · intro members hm
    subst hm
    simp [OpenAPIObject._GetObjectIfExist_map, get_object, index, hk, simdjson_noerror,
      to_object]
  · intro hm
    cases v <;>
      simp [OpenAPIObject._GetObjectIfExist_map, get_object, index, hk, simdjson_noerror,
        to_object]
    exact absurd rfl (hm _)
  · intro elems he
    subst he
    simp [OpenAPIObject._GetObjectIfExist_list, get_object, index, hk, simdjson_noerror,
      to_array]
  · intro he
    cases v <;>
      simp [OpenAPIObject._GetObjectIfExist_list, get_object, index, hk, simdjson_noerror,
        to_array]
    exact absurd rfl (he _)
  · simp [OpenAPIObject._GetObjectIfExist, get_object, index, hk, simdjson_noerror,
      OpenAPIObject.of_result, OpenAPIObject.of_element]

/-- C14 (amended) at the object `{"items": 5}` and the key `items`: the
string accessor raises and the object accessor returns a valid view over
the number. -/
theorem C14_present_key_witness :
    at_key [("items", Json.int64 5)] "items" = Except.ok (Json.int64 5) ∧
    OpenAPIObject._GetValueIfExist ⟨some (Json.object [("items", Json.int64 5)]), true⟩ "items"
      = Except.error (Fault.simdjson_error error_code.INCORRECT_TYPE) ∧
    OpenAPIObject._GetObjectIfExist ⟨some (Json.object [("items", Json.int64 5)]), true⟩
      "items" = Except.ok (OpenAPIObject.of_element (Json.int64 5)) :=
  ⟨rfl,
    ((C14_present_key_by_shape [("items", Json.int64 5)] true "items" (Json.int64 5) rfl).2.1
      (fun s hs => by cases hs)).1,
    (C14_present_key_by_shape [("items", Json.int64 5)] true "items" (Json.int64 5)
      rfl).2.2.2.2.2.2.2.2.1⟩

/-! ## Loading and name synthesis (C15, C16) -/

/-- C15 (the code at the failing input): when the file cannot be read or
does not parse, `Load` does not return `false`: the assignment of the failed
result raises the `simdjson_error` of its code. `Load` never returns
`false` at all; it returns `true` exactly when the parse succeeded. -/
theorem C15_load_raises_never_false (self : OpenAPI2) :
    (∀ c, OpenAPI2.Load self (Except.error c) = Except.error (Fault.simdjson_error c)) ∧
    OpenAPI2.Load self (Except.error error_code.IO_ERROR)
      = Except.error (Fault.simdjson_error error_code.IO_ERROR) ∧
    OpenAPI2.Load self (Except.error error_code.TAPE_ERROR)
      = Except.error (Fault.simdjson_error error_code.TAPE_ERROR) ∧
    (∀ loaded doc, OpenAPI2.Load self loaded ≠ Except.ok (false, doc)) ∧
    (∀ loaded doc, OpenAPI2.Load self loaded = Except.ok (true, doc) ↔
      ∃ root, loaded = Except.ok root ∧ doc = ⟨some root, self._is_valid⟩) := by
  refine ⟨fun c => rfl, rfl, rfl, ?_, ?_⟩
  · intro loaded doc h
    cases loaded with
    | error c => cases h
    | ok root =>
      simp only [OpenAPI2.Load, Except.ok.injEq, Prod.mk.injEq] at h
      exact absurd h.1 (by decide)
  · intro loaded doc
    cases loaded with
    | error c =>
      constructor
      · intro h
        cases h
      · rintro ⟨root, h, _⟩
        cases h
    | ok root =>
      simp only [OpenAPI2.Load, Except.ok.injEq, Prod.mk.injEq, true_and]
      constructor
      · intro h
        exact ⟨root, rfl, h.symm⟩
      · rintro ⟨root', h, hd⟩
        subst h
        exact hd.symm

theorem isAlphanum_of_isLower (c : Char) (h : c.isLower = true) : c.isAlphanum = true := by
  simp only [Char.isAlphanum, Char.isAlpha, Bool.or_eq_true]
  exact Or.inl (Or.inr h)

theorem RequestMethodToString_lower (v : RequestMethod) :
    ∃ c rest, (RequestMethodToString v).data = c :: rest ∧ c.isLower = true ∧
      ∀ x ∈ (RequestMethodToString v).data, x.isLower = true := by
  cases v <;> exact ⟨_, _, rfl, by decide, by decide⟩

/-- C16: for every path string and every verb, UNKNOWN included,
`SynthesizeFunctionName(path, verb)` is the lowercase token of the verb, then
`"_"`, then `sanitize(path)`. Hence, whenever `sanitize(path)` consists of
letters, digits and underscores only, the result is non-empty, starts with a
lowercase letter, consists of letters, digits and underscores only and so
holds no slash and no brace; equal arguments give equal results. -/
theorem C16_function_name (u : Util) (pathstr : String) (verb : RequestMethod) :
    SynthesizeFunctionName u pathstr verb
      = RequestMethodToString verb ++ "_" ++ u.sanitize pathstr ∧
    ((∀ c ∈ (u.sanitize pathstr).data, c.isAlphanum = true ∨ c = '_') →
      SynthesizeFunctionName u pathstr verb ≠ "" ∧
      (∃ c rest, (SynthesizeFunctionName u pathstr verb).data = c :: rest ∧
        c.isLower = true) ∧
      (∀ c ∈ (SynthesizeFunctionName u pathstr verb).data,
        (c.isAlphanum = true ∨ c = '_') ∧ c ≠ '/' ∧ c ≠ Char.ofNat 0x7b ∧
          c ≠ Char.ofNat 0x7d)) ∧
    (∀ pathstr2 verb2, pathstr2 = pathstr → verb2 = verb →
      SynthesizeFunctionName u pathstr2 verb2 = SynthesizeFunctionName u pathstr verb) := by
  obtain ⟨c0, rest0, hc0, hl0, hall⟩ := RequestMethodToString_lower verb
  have hdata : (SynthesizeFunctionName u pathstr verb).data
      = (RequestMethodToString verb).data ++ ('_' :: (u.sanitize pathstr).data) := by
    simp only [SynthesizeFunctionName, String.data_append]
    simp
  refine ⟨rfl, ?_, ?_⟩
  · intro hs
    refine ⟨?_, ?_, ?_⟩
    · intro he
      have := congrArg String.data he
      rw [hdata, hc0] at this
      simp at this
    · exact ⟨c0, rest0 ++ ('_' :: (u.sanitize pathstr).data), by rw [hdata, hc0]; rfl, hl0⟩
    · intro c hc
      rw [hdata] at hc
      have hok : c.isAlphanum = true ∨ c = '_' := by
        rcases List.mem_append.1 hc with h1 | h1
        · exact Or.inl (isAlphanum_of_isLower c (hall c h1))
        · rcases List.mem_cons.1 h1 with h2 | h2
          · exact Or.inr h2
          · exact hs c h2
      refine ⟨hok, ?_, ?_, ?_⟩ <;>
      · intro he
        subst he
        rcases hok with h | h
        · exact absurd h (by decide)
        · exact absurd h (by decide)
  · intro pathstr2 verb2 hp hv
    rw [hp, hv]

/-- C16 at the path `/users/{id}` and the verb GET, with `sample_sanitize`:
the name is `get__users__id_`. -/
theorem C16_function_name_witness :
    SynthesizeFunctionName underscore_util "/users/\x7bid\x7d" RequestMethod.GET
      = "get__users__id_" ∧
    (∃ c rest, (SynthesizeFunctionName underscore_util "/users/\x7bid\x7d"
        RequestMethod.GET).data = c :: rest ∧ c.isLower = true) ∧
    (∀ c ∈ (SynthesizeFunctionName underscore_util "/users/\x7bid\x7d"
        RequestMethod.GET).data,
      (c.isAlphanum = true ∨ c = '_') ∧ c ≠ '/' ∧ c ≠ Char.ofNat 0x7b ∧
        c ≠ Char.ofNat 0x7d) := by
  have h := C16_function_name underscore_util "/users/\x7bid\x7d" RequestMethod.GET
  have hs := h.2.1 (by decide)
  exact ⟨by decide, hs.2.1, hs.2.2⟩

/-! ## Printing twice, termination, sanitized names, bare objects (C17-C20) -/

/-- C17 (as the claim states it, refuted): on the object node
`union_child_node` the first of the two calls already raises, so no text
and no tag come back to be compared. -/
theorem C17_first_call_raises :
    Property.Print sample_util (OpenAPIObject.of_element union_child_node) "" "Pet" ""
      = Except.error (Fault.simdjson_error error_code.INCORRECT_TYPE) := by
  apply Print_object_error sample_util (OpenAPIObject.of_element union_child_node)
    "" "Pet" "" "" ""
    (MapAdaptor.of_object [("id", Json.object [("type",
      Json.array [Json.string "integer", Json.string "null"])])])
    _ rfl rfl rfl rfl rfl
  exact Print_properties_cons_error sample_util "id" _ [] _ _ _
    (Print_type_error sample_util _ _ "id" _ "" "" _ rfl rfl rfl rfl)

/-- C17 (amended): for every schema node, target name and initial indent,
if `Print` into a fresh sink returns, then it hands the indent back
unchanged, and a second call on the same node with the same name, into a
second fresh sink and with the indent the first call left, writes the same
text and returns the same tag; on every well-shaped schema node the first
call does return. -/
theorem C17_print_twice (u : Util) (self : Property) (name_ indent : String) :
    (∀ tag text indent1,
      Property.Print u self "" name_ indent = Except.ok (tag, text, indent1) →
      indent1 = indent ∧
      Property.Print u self "" name_ indent1 = Except.ok (tag, text, indent1)) ∧
    (∀ j b, self = ⟨some j, b⟩ → tidy j = true →
      ∃ tag text indent1,
        Property.Print u self "" name_ indent = Except.ok (tag, text, indent1) ∧
        Property.Print u self "" name_ indent1 = Except.ok (tag, text, indent1)) := by
  have hfirst : ∀ tag text indent1,
      Property.Print u self "" name_ indent = Except.ok (tag, text, indent1) →
      indent1 = indent ∧
      Property.Print u self "" name_ indent1 = Except.ok (tag, text, indent1) := by
    intro tag text indent1 h
    have hi := (Print_indent u).1 self "" name_ indent tag text indent1 h
    subst hi
    exact ⟨rfl, h⟩
  refine ⟨hfirst, ?_⟩
  intro j b hself ht
  obtain ⟨⟨tag, text, indent1⟩, h⟩ := (Print_total u).1 self j b hself ht "" name_ indent
  exact ⟨tag, text, indent1, h, (hfirst tag text indent1 h).2⟩

/-- C17 (amended) on Scenario A at one tab of indent. -/
theorem C17_print_twice_witness :
    ∃ tag text indent1,
      Property.Print sample_util (OpenAPIObject.of_element scenarioA) "" "Pet" "\t"
        = Except.ok (tag, text, indent1) ∧
      Property.Print sample_util (OpenAPIObject.of_element scenarioA) "" "Pet" indent1
        = Except.ok (tag, text, indent1) ∧
      indent1 = "\t" := by
  have h := C17_print_twice sample_util (OpenAPIObject.of_element scenarioA) "Pet" "\t"
  obtain ⟨tag, text, indent1, h1, h2⟩ := h.2 scenarioA true rfl (by decide)
  exact ⟨tag, text, indent1, h1, h2, (h.1 tag text indent1 h1).1⟩

theorem sizeOf_field_value (fields : List (String × Json)) (kv : String × Json)
    (h : kv ∈ fields) : sizeOf kv.2 < sizeOf fields := by
  have h1 := List.sizeOf_lt_of_mem h
  obtain ⟨k, v⟩ := kv
  simp only [Prod.mk.sizeOf_spec] at h1
  simp only
  omega

theorem self_reference_node_print :
    Property.Print sample_util (OpenAPIObject.of_element self_reference_node) "" "Node" ""
      = Except.ok (JsonType.Object, "struct Node \x7b\n\tNode obj;\n\x7d;\n", "") := by
  rw [Print_object_ok sample_util (OpenAPIObject.of_element self_reference_node) "" "Node" ""
    "" ""
    (MapAdaptor.of_object [("next", Json.object [("$ref", Json.string "#/definitions/Node")])])
    "struct Node \x7b\n\tNode obj;\n" "\t" rfl rfl rfl rfl rfl]
  · rfl
  · show Print_properties sample_util
      [("next", Json.object [("$ref", Json.string "#/definitions/Node")])] _ _ = _
    rw [Print_properties_cons_ok sample_util "next" _ _ _ _ _ _ _
      (Print_reference sample_util
        (OpenAPIObject.of_element (Json.object [("$ref", Json.string "#/definitions/Node")]))
        _ "next" _ "" "#/definitions/Node" rfl rfl rfl),
      if_neg (by decide), Print_properties_nil]
    rfl

/-- C18: `Print` is a total function of the node: every call ends, with a
result or with a fault. Its recursion goes only into the children of
`properties` and into the single `items` child, each strictly smaller than
the node; a reference node is printed without any recursive call, from its
`description` and `$ref` alone, and the definitions table is no argument of
`Print`. So `Print` returns on every well-shaped tree whatever `$ref`
strings it holds, also on a definition that refers to itself. -/
theorem C18_print_terminates (u : Util) :
    (∀ self out name_ indent,
      (∃ res, Property.Print u self out name_ indent = Except.ok res) ∨
      (∃ f, Property.Print u self out name_ indent = Except.error f)) ∧
    (∀ self props, Property.properties self = Except.ok props →
      ∀ kv ∈ props.fields,
        sizeOf (OpenAPIObject.of_element kv.2)._json < sizeOf self._json) ∧
    (∀ self item, Property.items self = Except.ok item →
      sizeOf item._json < sizeOf self._json) ∧
    (∀ self out name_ indent d r, Property.description self = Except.ok d →
      Property.reference self = Except.ok r → starts_with r def_refstr = true →
      Property.Print u self out name_ indent =
        Except.ok (JsonType.Reference,
          out ++ u.write_multiline_comment d indent ++ indent
            ++ remove_prefix r def_refstr.length ++ " obj;\n", indent)) ∧
    (∀ j, tidy j = true → ∀ out name_ indent,
      ∃ res, Property.Print u (OpenAPIObject.of_element j) out name_ indent = Except.ok res) ∧
    tidy self_reference_node = true ∧
    OpenAPI2.GetDefinedSchemaByReference node_document "#/definitions/Node"
      = Except.ok (OpenAPIObject.of_element self_reference_node) ∧
    Property.Print sample_util (OpenAPIObject.of_element self_reference_node) "" "Node" ""
      = Except.ok (JsonType.Object, "struct Node \x7b\n\tNode obj;\n\x7d;\n", "") := by
  refine ⟨?_, ?_, ?_, ?_, ?_, by decide, rfl, self_reference_node_print⟩
  · intro self out name_ indent
    cases h : Property.Print u self out name_ indent with
    | error f => exact Or.inr ⟨f, rfl⟩
    | ok res => exact Or.inl ⟨res, rfl⟩
  · intro self props hp kv hkv
    have h1 := properties_sizeOf self props hp
    have h2 := sizeOf_field_value props.fields kv hkv
    simp only [OpenAPIObject.of_element, Option.some.sizeOf_spec]
    omega
  · intro self item hi
    exact items_sizeOf self item hi
  · intro self out name_ indent d r hd hr hpre
    exact Print_reference u self out name_ indent d r hd hr hpre
  · intro j ht out name_ indent
    exact (Print_total u).1 _ j true rfl ht out name_ indent

theorem hyphen_key_child_print :
    Property.Print underscore_util
      (OpenAPIObject.of_element (Json.object [("type", Json.string "object")]))
      "struct Owner \x7b\n" "pet-type" "\t"
      = Except.ok (JsonType.Object, "struct Owner \x7b\n\tstruct pet_type \x7b\n\t\x7d;\n", "\t") :=
  Print_object_no_members underscore_util
    (OpenAPIObject.of_element (Json.object [("type", Json.string "object")]))
    "struct Owner \x7b\n" "pet-type" "\t" "" "" MapAdaptor.default rfl rfl rfl rfl rfl rfl

/-- C19 (the code at the failing inputs): with a sanitizer that turns
`Pet-Type` into `Pet_Type`, the reference node `{"$ref":
"#/definitions/Pet-Type"}` is declared as `Pet-Type obj;` and an array of
such references as `std::vector<Pet-Type>`: the name taken from `$ref` is
written raw, whatever the sanitizer. For the property key `pet-type` of an
object the struct and the field's type are the sanitized `pet_type`, but
the field's name is the raw key followed by an underscore, `pet-type_`. -/
theorem C19_raw_names_reach_the_sink (u : Util) :
    Property.Print u (OpenAPIObject.of_element hyphen_reference_node) "" "pet" ""
      = Except.ok (JsonType.Reference,
          "" ++ u.write_multiline_comment "" "" ++ "" ++ "Pet-Type" ++ " obj;\n", "") ∧
    underscore_util.sanitize "Pet-Type" = "Pet_Type" ∧
    Property.Print underscore_util (OpenAPIObject.of_element hyphen_reference_node) "" "pet" ""
      = Except.ok (JsonType.Reference, "Pet-Type obj;\n", "") ∧
    Property.Print underscore_util (OpenAPIObject.of_element hyphen_array_node)
        "" "pet-list" ""
      = Except.ok (JsonType.Array, "using pet_list = std::vector<Pet-Type>;\n", "") ∧
    underscore_util.sanitize "pet-type" = "pet_type" ∧
    Property.Print underscore_util (OpenAPIObject.of_element hyphen_key_node) "" "Owner" ""
      = Except.ok (JsonType.Object,
          "struct Owner \x7b\n\tstruct pet_type \x7b\n\t\x7d;\n\tpet_type pet-type_;\n\x7d;\n",
          "") := by
  refine ⟨?_, by decide, ?_, ?_, by decide, ?_⟩
  · exact Print_reference u (OpenAPIObject.of_element hyphen_reference_node) "" "pet" "" ""
      "#/definitions/Pet-Type" rfl rfl rfl
  · exact Print_reference underscore_util (OpenAPIObject.of_element hyphen_reference_node)
      "" "pet" "" "" "#/definitions/Pet-Type" rfl rfl rfl
  · exact Print_array_reference underscore_util (OpenAPIObject.of_element hyphen_array_node)
      (OpenAPIObject.of_element hyphen_reference_node)
      "" "pet-list" "" "" "" "#/definitions/Pet-Type" rfl rfl rfl rfl rfl rfl rfl
  · rw [Print_object_ok underscore_util (OpenAPIObject.of_element hyphen_key_node)
      "" "Owner" "" "" ""
      (MapAdaptor.of_object [("pet-type", Json.object [("type", Json.string "object")])])
      "struct Owner \x7b\n\tstruct pet_type \x7b\n\t\x7d;\n\tpet_type pet-type_;\n" "\t"
      rfl rfl rfl rfl rfl]
    · rfl
    · show Print_properties underscore_util
        [("pet-type", Json.object [("type", Json.string "object")])] "struct Owner \x7b\n"
        "\t" = _
      rw [Print_properties_cons_ok underscore_util "pet-type" _ _ _ _ _ _ _
        hyphen_key_child_print, if_pos rfl, Print_properties_nil]
      rfl

/-- C21 (the code at the failing input): on the info object `{"title":
"Swagger Petstore", "termsOfService": "http://swagger.io/terms/", "version":
"1.0.0"}`, which holds a string under `termsOfService`,
`Info::terms_of_service()` returns the empty string: it reads the key
`terms_of_service`, and returns what that key holds. The sibling accessor
`operation_id()` does read the document's spelling, `operationId`. -/
theorem C21_terms_of_service_key :
    at_key [("title", Json.string "Swagger Petstore"),
        ("termsOfService", Json.string "http://swagger.io/terms/"),
        ("version", Json.string "1.0.0")] "termsOfService"
      = Except.ok (Json.string "http://swagger.io/terms/") ∧
    Info.terms_of_service (OpenAPIObject.of_element petstore_info) = Except.ok "" ∧
    OpenAPI2.info petstore_document = Except.ok (OpenAPIObject.of_element petstore_info) ∧
    Info.title (OpenAPIObject.of_element petstore_info) = Except.ok "Swagger Petstore" ∧
    (∀ (fields : List (String × Json)) (b : Bool),
      "terms_of_service" ∉ fields.map Prod.fst →
      Info.terms_of_service ⟨some (Json.object fields), b⟩ = Except.ok "") ∧
    (∀ (fields : List (String × Json)) (b : Bool) (s : String),
      at_key fields "terms_of_service" = Except.ok (Json.string s) →
      Info.terms_of_service ⟨some (Json.object fields), b⟩ = Except.ok s) ∧
    Info.terms_of_service (OpenAPIObject.of_element
      (Json.object [("terms_of_service", Json.string "http://swagger.io/terms/")]))
      = Except.ok "http://swagger.io/terms/" ∧
    Operation.operation_id (OpenAPIObject.of_element
      (Json.object [("operationId", Json.string "listPets")])) = Except.ok "listPets" := by
  refine ⟨rfl, rfl, rfl, rfl, ?_, ?_, rfl, rfl⟩
  · intro fields b h
    simp only [Info.terms_of_service, OpenAPIObject._GetValueIfExist, get_object, index,
      at_key_absent fields _ h, simdjson_noerror]
    rfl
  · intro fields b s h
    simp only [Info.terms_of_service, OpenAPIObject._GetValueIfExist, get_object, index, h,
      simdjson_noerror, get_string, value]
    rfl

/-- C22: for every document, hence for every definitions table, and every
string `X` that does not start with `"#/definitions/"`,
`GetDefinedSchemaByReference(X)` returns what
`GetDefinedSchemaByReference("#/definitions/" + X)` returns; with the
definitions a table, both are the first entry named `X`, or the empty view. -/
theorem C22_bare_name (doc : OpenAPI2) (X : String)
    (h : starts_with X def_refstr = false) :
    OpenAPI2.GetDefinedSchemaByReference doc X
      = OpenAPI2.GetDefinedSchemaByReference doc (def_refstr ++ X) ∧
    (∀ table, OpenAPI2.definitions doc = Except.ok (MapAdaptor.of_object table) →
      OpenAPI2.GetDefinedSchemaByReference doc X
        = Except.ok (first_named (MapAdaptor.of_object table).entries X)) := by
  have hbare : OpenAPI2.GetDefinedSchemaByReference doc X =
      (match OpenAPI2.definitions doc with
        | Except.error f => Except.error f
        | Except.ok defs => Except.ok (first_named defs.entries X)) := by
    simp only [OpenAPI2.GetDefinedSchemaByReference, h]
    rfl
  have hfull : OpenAPI2.GetDefinedSchemaByReference doc (def_refstr ++ X) =
      (match OpenAPI2.definitions doc with
        | Except.error f => Except.error f
        | Except.ok defs => Except.ok (first_named defs.entries X)) := by
    simp only [OpenAPI2.GetDefinedSchemaByReference, starts_with_append, remove_prefix_append,
      if_true]
  refine ⟨by rw [hbare, hfull], ?_⟩
  intro table ht
  rw [hbare, ht]

/-- C22 at `pet_document`: the bare name `Pet` and `#/definitions/Pet`
both resolve to the first entry named `Pet`. -/
theorem C22_bare_name_witness :
    starts_with "Pet" def_refstr = false ∧
    OpenAPI2.GetDefinedSchemaByReference pet_document "Pet"
      = OpenAPI2.GetDefinedSchemaByReference pet_document (def_refstr ++ "Pet") ∧
    OpenAPI2.GetDefinedSchemaByReference pet_document "Pet"
      = Except.ok (OpenAPIObject.of_element (Json.bool true)) :=
  ⟨rfl, (C22_bare_name pet_document "Pet" rfl).1, rfl⟩

/-! ## The indent, reference fields and arrays of arrays (C23, C24, C25) -/

theorem scenarioA_nested :
    Property.Print sample_util (OpenAPIObject.of_element scenarioA) "" "Pet" "\t" =
      Except.ok (JsonType.Object,
        "\tstruct Pet \x7b\n\t\tstd::string name;\n\t\tstd::vector<std::string> tags;\n\t\x7d;\n",
        "\t") := by
  rw [Print_object_ok sample_util (OpenAPIObject.of_element scenarioA) "" "Pet" "\t" "" ""
    (MapAdaptor.of_object [("name", Json.object [("type", Json.string "string")]),
      ("tags", Json.object [("type", Json.string "array"),
        ("items", Json.object [("type", Json.string "string")])])])
    "\tstruct Pet \x7b\n\t\tstd::string name;\n\t\tstd::vector<std::string> tags;\n" "\t\t"
    rfl rfl rfl rfl rfl]
  · rfl
  · show Print_properties sample_util [("name", Json.object [("type", Json.string "string")]),
      ("tags", Json.object [("type", Json.string "array"),
        ("items", Json.object [("type", Json.string "string")])])]
      "\tstruct Pet \x7b\n" "\t\t" = _
    rw [Print_properties_cons_ok sample_util "name" _ _ _ _ _ _ _
      (Print_primitive sample_util
        (OpenAPIObject.of_element (Json.object [("type", Json.string "string")]))
        _ "name" _ "" "" "string" rfl rfl rfl rfl (by decide) (by decide)),
      if_neg (by decide),
      Print_properties_cons_ok sample_util "tags" _ _ _ _ _ _ _
      (Print_array_primitive sample_util
        (OpenAPIObject.of_element (Json.object [("type", Json.string "array"),
          ("items", Json.object [("type", Json.string "string")])]))
        (OpenAPIObject.of_element (Json.object [("type", Json.string "string")]))
        _ "tags" _ "" "" "" "string" rfl rfl rfl rfl rfl rfl rfl rfl (by decide) (by decide)),
      if_neg (by decide), Print_properties_nil]
    rfl

/-- C23: whenever `Print` returns, the indent it hands back equals the
indent on entry, for every node, stream, name and indent; so does the loop
over the properties, at every nesting depth, because the tab pushed before
the loop is the character popped after it. On every well-shaped schema node
`Print` does return, with the indent unchanged. -/
theorem C23_indent_unchanged (u : Util) :
    (∀ self out name_ indent tag o i,
      Property.Print u self out name_ indent = Except.ok (tag, o, i) → i = indent) ∧
    (∀ fields out indent o i,
      Print_properties u fields out indent = Except.ok (o, i) → i = indent) ∧
    (∀ indent c, pop_back (push_back indent c) = indent) ∧
    (∀ j, tidy j = true → ∀ out name_ indent,
      ∃ tag o, Property.Print u (OpenAPIObject.of_element j) out name_ indent
        = Except.ok (tag, o, indent)) := by
  refine ⟨(Print_indent u).1, (Print_indent u).2, pop_back_push_back, ?_⟩
  intro j ht out name_ indent
  obtain ⟨⟨tag, o, i⟩, h⟩ := (Print_total u).1 _ j true rfl ht out name_ indent
  have hi := (Print_indent u).1 _ _ _ _ _ _ _ h
  subst hi
  exact ⟨tag, o, h⟩

/-- C23 on Scenario A printed at one tab of indent: the struct's members sit
two tabs deep and the indent comes back as one tab. -/
theorem C23_indent_unchanged_witness :
    Property.Print sample_util (OpenAPIObject.of_element scenarioA) "" "Pet" "\t" =
      Except.ok (JsonType.Object,
        "\tstruct Pet \x7b\n\t\tstd::string name;\n\t\tstd::vector<std::string> tags;\n\t\x7d;\n",
        "\t") ∧
    (∀ tag o i, Property.Print sample_util (OpenAPIObject.of_element scenarioA) "" "Pet" "\t"
      = Except.ok (tag, o, i) → i = "\t") :=
  ⟨scenarioA_nested,
    fun tag o i h => (C23_indent_unchanged sample_util).1 _ _ _ _ tag o i h⟩

theorem string_append_cancel (a b c : String) (h : a ++ b = a ++ c) : b = c := by
  have h1 := congrArg String.data h
  simp only [String.data_append] at h1
  exact String.ext (List.append_cancel_left h1)

theorem Print_extends (u : Util) :
    (∀ self : Property, ∀ out name_ indent tag o i,
      Property.Print u self out name_ indent = Except.ok (tag, o, i) → ∃ s, o = out ++ s) ∧
    (∀ fields : List (String × Json), ∀ out indent o i,
      Print_properties u fields out indent = Except.ok (o, i) → ∃ s, o = out ++ s) := by
  apply Print_induction
  · intro self ihQ ihP out name_ indent tag o i h
    rw [Property.Print] at h
    split at h
    · cases h
    split at h
    · cases h
    · split at h
      · cases h
      · simp only [Except.ok.injEq, Prod.mk.injEq] at h
        rw [← h.2.1]
        simp only [String.append_assoc]
        exact ⟨_, rfl⟩
    · split at h
      · cases h
      split at h
      · split at h
        · cases h
        rename_i props hp
        dsimp only at h
        split at h
        · cases h
        rename_i o1 i1 h1
        simp only [Except.ok.injEq, Prod.mk.injEq] at h
        obtain ⟨s, hs⟩ := ihQ props hp _ _ _ _ h1
        rw [← h.2.1, hs]
        simp only [String.append_assoc]
        exact ⟨_, rfl⟩
      split at h
      · split at h
        · cases h
        rename_i item hi
        split at h
        · cases h
        · split at h
          · cases h
          · simp only [Except.ok.injEq, Prod.mk.injEq] at h
            rw [← h.2.1]
            simp only [String.append_assoc]
            exact ⟨_, rfl⟩
        · split at h
          · cases h
          split at h
          · split at h <;>
            · simp only [Except.ok.injEq, Prod.mk.injEq] at h
              rw [← h.2.1]
              simp only [String.append_assoc]
              exact ⟨_, rfl⟩
          split at h
          · simp only [Except.ok.injEq, Prod.mk.injEq] at h
            rw [← h.2.1]
            exact ⟨_, rfl⟩
          dsimp only at h
          split at h
          · cases h
          rename_i tag1 o1 i1 h1
          obtain ⟨s, hs⟩ := ihP item hi _ _ _ _ _ _ h1
          split at h <;>
          · simp only [Except.ok.injEq, Prod.mk.injEq] at h
            rw [← h.2.1, hs]
            simp only [String.append_assoc]
            exact ⟨_, rfl⟩
      · simp only [Except.ok.injEq, Prod.mk.injEq] at h
        rw [← h.2.1]
        simp only [String.append_assoc]
        exact ⟨_, rfl⟩
  · intro out indent o i h
    rw [Print_properties_nil] at h
    simp only [Except.ok.injEq, Prod.mk.injEq] at h
    exact ⟨"", by rw [← h.1]; simp⟩
  · intro k v rest ihP ihQ out indent o i h
    rw [Print_properties_cons] at h
    split at h
    · cases h
    rename_i tag1 o1 i1 h1
    obtain ⟨s2, hs2⟩ := ihQ _ _ _ _ h
    obtain ⟨s1, hs1⟩ := ihP _ _ _ _ _ _ h1
    rw [hs2, hs1]
    split
    · simp only [String.append_assoc]
      exact ⟨_, rfl⟩
    · simp only [String.append_assoc]
      exact ⟨_, rfl⟩

theorem Print_properties_segments (u : Util) (fields : List (String × Json)) :
    ∀ out indent o i, Print_properties u fields out indent = Except.ok (o, i) →
      ∃ segs : List String, o = out ++ segs.foldr (fun s acc => s ++ acc) "" ∧
        List.Forall₂ (fun (kv : String × Json) (seg : String) =>
          ∀ r, Property.reference (OpenAPIObject.of_element kv.2) = Except.ok r →
            starts_with r def_refstr = true →
            ∃ d, Property.description (OpenAPIObject.of_element kv.2) = Except.ok d ∧
              seg = u.write_multiline_comment d indent ++ indent
                ++ remove_prefix r def_refstr.length ++ " obj;\n") fields segs := by
  induction fields with
  | nil =>
    intro out indent o i h
    rw [Print_properties_nil] at h
    simp only [Except.ok.injEq, Prod.mk.injEq] at h
    exact ⟨[], by rw [← h.1]; simp, List.Forall₂.nil⟩
  | cons kv rest ih =>
    obtain ⟨k, v⟩ := kv
    intro out indent o i h
    rw [Print_properties_cons] at h
    split at h
    · cases h
    rename_i tag1 o1 i1 h1
    have hi1 := (Print_indent u).1 _ _ _ _ _ _ _ h1
    subst hi1
    obtain ⟨s1, hs1⟩ := (Print_extends u).1 _ _ _ _ _ _ _ h1
    obtain ⟨segs, hseg, hall⟩ := ih _ _ _ _ h
    refine ⟨(if tag1 = JsonType.Object then
        s1 ++ i1 ++ u.sanitize k ++ " " ++ k ++ "_;\n" else s1) :: segs, ?_,
      List.Forall₂.cons ?_ hall⟩
    · rw [hseg, hs1]
      simp only [List.foldr_cons]
      split <;> simp only [String.append_assoc]
    · intro r hr hpre
      cases hd : Property.description (OpenAPIObject.of_element v) with
      | error f =>
        rw [Print_description_error u _ out k i1 f hd] at h1
        cases h1
      | ok d =>
        rw [Print_reference u _ out k i1 d r hd hr hpre] at h1
        simp only [Except.ok.injEq, Prod.mk.injEq] at h1
        refine ⟨d, rfl, ?_⟩
        obtain ⟨ht, ho, _⟩ := h1
        subst ht
        rw [if_neg (by decide)]
        apply string_append_cancel out
        rw [← hs1, ← ho]
        simp only [String.append_assoc]

theorem foldr_append_strings (l1 l2 : List String) :
    (l1 ++ l2).foldr (fun s acc => s ++ acc) "" =
      l1.foldr (fun s acc => s ++ acc) "" ++ l2.foldr (fun s acc => s ++ acc) "" := by
  induction l1 with
  | nil => simp
  | cons a l ih => simp only [List.cons_append, List.foldr_cons, ih, String.append_assoc]

theorem forall₂_split {α β : Type} (R : α → β → Prop) (pre : List α) (x : α)
    (post : List α) :
    ∀ segs, List.Forall₂ R (pre ++ x :: post) segs →
      ∃ s1 sx s2, segs = s1 ++ sx :: s2 ∧ R x sx ∧ List.Forall₂ R post s2 := by
  induction pre with
  | nil =>
    intro segs h
    cases h with
    | cons hx hrest => exact ⟨[], _, _, rfl, hx, hrest⟩
  | cons a l ih =>
    intro segs h
    cases h with
    | cons ha hrest =>
      obtain ⟨s1, sx, s2, hs, hx, hp⟩ := ih _ hrest
      exact ⟨_ :: s1, sx, s2, by rw [hs]; rfl, hx, hp⟩

theorem Print_object_segments (u : Util) (self : Property) (out name_ indent r : String)
    (tag : JsonType) (o i : String)
    (hr : Property.reference self = Except.ok r)
    (hnr : starts_with r def_refstr = false)
    (ht : Property.type self = Except.ok "object")
    (h : Property.Print u self out name_ indent = Except.ok (tag, o, i)) :
    ∃ d props segs, Property.description self = Except.ok d ∧
      Property.properties self = Except.ok props ∧
      tag = JsonType.Object ∧ i = indent ∧
      o = out ++ u.write_multiline_comment d indent ++ indent ++ "struct "
            ++ u.sanitize name_ ++ " \x7b\n" ++ segs.foldr (fun s acc => s ++ acc) ""
            ++ indent ++ "\x7d;\n" ∧
      List.Forall₂ (fun (kv : String × Json) (seg : String) =>
        ∀ rc, Property.reference (OpenAPIObject.of_element kv.2) = Except.ok rc →
          starts_with rc def_refstr = true →
          ∃ dc, Property.description (OpenAPIObject.of_element kv.2) = Except.ok dc ∧
            seg = u.write_multiline_comment dc (push_back indent '\t')
              ++ push_back indent '\t' ++ remove_prefix rc def_refstr.length ++ " obj;\n")
        props.fields segs := by
  cases hd : Property.description self with
  | error f =>
    rw [Print_description_error u self out name_ indent f hd] at h
    cases h
  | ok d =>
    cases hp : Property.properties self with
    | error f =>
      rw [Print_object_properties_error u self out name_ indent d r f hd hr hnr ht hp] at h
      cases h
    | ok props =>
      rw [Print_object_restored u self out name_ indent d r props hd hr hnr ht hp] at h
      split at h
      · cases h
      rename_i o1 i1 h1
      simp only [Except.ok.injEq, Prod.mk.injEq] at h
      obtain ⟨segs, hseg, hall⟩ := Print_properties_segments u _ _ _ _ _ h1
      refine ⟨d, props, segs, rfl, rfl, h.1.symm, h.2.2.symm, ?_, hall⟩
      rw [← h.2.1, hseg]

/-- C24 (as the claim states it, refuted): the object nodes
`numbered_reference_node` and `late_references_node` each have two
reference-typed properties, yet no field named `obj` is emitted for them:
in the first the first reference raises on its `description`, in the second
the property listed before the two references raises on its `type`, and so
does `Print`. -/
theorem C24_reference_child_raises :
    Property.reference (OpenAPIObject.of_element
      (Json.object [("description", Json.int64 5),
        ("$ref", Json.string "#/definitions/Pet")])) = Except.ok "#/definitions/Pet" ∧
    Property.reference (OpenAPIObject.of_element
      (Json.object [("$ref", Json.string "#/definitions/Tag")]))
      = Except.ok "#/definitions/Tag" ∧
    Property.type (OpenAPIObject.of_element numbered_reference_node) = Except.ok "object" ∧
    Property.Print sample_util (OpenAPIObject.of_element numbered_reference_node) "" "Owner" ""
      = Except.error (Fault.simdjson_error error_code.INCORRECT_TYPE) ∧
    Property.reference (OpenAPIObject.of_element
      (Json.object [("$ref", Json.string "#/definitions/Pet")]))
      = Except.ok "#/definitions/Pet" ∧
    Property.type (OpenAPIObject.of_element late_references_node) = Except.ok "object" ∧
    Property.description (OpenAPIObject.of_element late_references_node) = Except.ok "" ∧
    Property.Print sample_util (OpenAPIObject.of_element late_references_node) "" "Owner" ""
      = Except.error (Fault.simdjson_error error_code.INCORRECT_TYPE) := by
  refine ⟨rfl, rfl, rfl, ?_, rfl, rfl, rfl, ?_⟩
  · apply Print_object_error sample_util (OpenAPIObject.of_element numbered_reference_node)
      "" "Owner" "" "" ""
      (MapAdaptor.of_object [
        ("pet", Json.object [("description", Json.int64 5),
          ("$ref", Json.string "#/definitions/Pet")]),
        ("tag", Json.object [("$ref", Json.string "#/definitions/Tag")])])
      _ rfl rfl rfl rfl rfl
    exact Print_properties_cons_error sample_util "pet" _ _ _ _ _
      (Print_description_error sample_util _ _ "pet" _ _ rfl)
  · apply Print_object_error sample_util (OpenAPIObject.of_element late_references_node)
      "" "Owner" "" "" ""
      (MapAdaptor.of_object [
        ("id", Json.object [("type",
          Json.array [Json.string "integer", Json.string "null"])]),
        ("pet", Json.object [("$ref", Json.string "#/definitions/Pet")]),
        ("tag", Json.object [("$ref", Json.string "#/definitions/Tag")])])
      _ rfl rfl rfl rfl rfl
    exact Print_properties_cons_error sample_util "id" _ _ _ _ _
      (Print_type_error sample_util _ _ "id" _ "" "" _ rfl rfl rfl rfl)

theorem two_references_node_print :
    Property.Print sample_util (OpenAPIObject.of_element two_references_node) "" "Owner" ""
      = Except.ok (JsonType.Object, "struct Owner \x7b\n\tPet obj;\n\tTag obj;\n\x7d;\n", "") := by
  rw [Print_object_ok sample_util (OpenAPIObject.of_element two_references_node) "" "Owner" ""
    "" ""
    (MapAdaptor.of_object [
      ("pet", Json.object [("$ref", Json.string "#/definitions/Pet")]),
      ("tag", Json.object [("$ref", Json.string "#/definitions/Tag")])])
    "struct Owner \x7b\n\tPet obj;\n\tTag obj;\n" "\t" rfl rfl rfl rfl rfl]
  · rfl
  · show Print_properties sample_util [
      ("pet", Json.object [("$ref", Json.string "#/definitions/Pet")]),
      ("tag", Json.object [("$ref", Json.string "#/definitions/Tag")])]
      "struct Owner \x7b\n" "\t" = _
    rw [Print_properties_cons_ok sample_util "pet" _ _ _ _ _ _ _
      (Print_reference sample_util
        (OpenAPIObject.of_element (Json.object [("$ref", Json.string "#/definitions/Pet")]))
        _ "pet" _ "" "#/definitions/Pet" rfl rfl rfl),
      if_neg (by decide),
      Print_properties_cons_ok sample_util "tag" _ _ _ _ _ _ _
      (Print_reference sample_util
        (OpenAPIObject.of_element (Json.object [("$ref", Json.string "#/definitions/Tag")]))
        _ "tag" _ "" "#/definitions/Tag" rfl rfl rfl),
      if_neg (by decide), Print_properties_nil]
    rfl

theorem spaced_references_node_print :
    Property.Print sample_util (OpenAPIObject.of_element spaced_references_node) "" "Owner" ""
      = Except.ok (JsonType.Object,
          "struct Owner \x7b\n\tPet obj;\n\tstd::string name;\n\tTag obj;\n\x7d;\n", "") := by
  rw [Print_object_ok sample_util (OpenAPIObject.of_element spaced_references_node) "" "Owner"
    "" "" ""
    (MapAdaptor.of_object [
      ("pet", Json.object [("$ref", Json.string "#/definitions/Pet")]),
      ("name", Json.object [("type", Json.string "string")]),
      ("tag", Json.object [("$ref", Json.string "#/definitions/Tag")])])
    "struct Owner \x7b\n\tPet obj;\n\tstd::string name;\n\tTag obj;\n" "\t" rfl rfl rfl rfl rfl]
  · rfl
  · show Print_properties sample_util [
      ("pet", Json.object [("$ref", Json.string "#/definitions/Pet")]),
      ("name", Json.object [("type", Json.string "string")]),
      ("tag", Json.object [("$ref", Json.string "#/definitions/Tag")])]
      "struct Owner \x7b\n" "\t" = _
    rw [Print_properties_cons_ok sample_util "pet" _ _ _ _ _ _ _
      (Print_reference sample_util
        (OpenAPIObject.of_element (Json.object [("$ref", Json.string "#/definitions/Pet")]))
        _ "pet" _ "" "#/definitions/Pet" rfl rfl rfl),
      if_neg (by decide),
      Print_properties_cons_ok sample_util "name" _ _ _ _ _ _ _
      (Print_primitive sample_util
        (OpenAPIObject.of_element (Json.object [("type", Json.string "string")]))
        _ "name" _ "" "" "string" rfl rfl rfl rfl (by decide) (by decide)),
      if_neg (by decide),
      Print_properties_cons_ok sample_util "tag" _ _ _ _ _ _ _
      (Print_reference sample_util
        (OpenAPIObject.of_element (Json.object [("$ref", Json.string "#/definitions/Tag")]))
        _ "tag" _ "" "#/definitions/Tag" rfl rfl rfl),
      if_neg (by decide), Print_properties_nil]
    rfl

/-- C24 (amended): for every reference node the result of `Print` does not
depend on the target name: any two names give the same result. When the
node's `description` is absent or a string, that result is the description
comment followed by the one line `<indent><name from $ref> obj;`, the
declared field always being named `obj`. Consequently, whenever `Print`
returns on a non-reference node of type `"object"`, the text it has written
is the struct header, one segment for each property in document order, and
the closing line, and the segment of every reference-typed property is that
property's comment and the line `<indent + tab><name from $ref> obj;`; so an
object node with two reference-typed properties at any two places among its
properties, on which `Print` returns, has emitted two fields with the
identical name `obj` inside the same struct. `Print` returns on every
well-shaped schema node; `two_references_node` is printed as a struct
holding `Pet obj;` and `Tag obj;`, `spaced_references_node` as one holding
`Pet obj;`, `std::string name;` and `Tag obj;`. -/
theorem C24_reference_ignores_name (u : Util) :
    (∀ self out indent r n1 n2, Property.reference self = Except.ok r →
      starts_with r def_refstr = true →
      Property.Print u self out n1 indent = Property.Print u self out n2 indent) ∧
    (∀ self out indent r d name_, Property.reference self = Except.ok r →
      starts_with r def_refstr = true → Property.description self = Except.ok d →
      Property.Print u self out name_ indent =
        Except.ok (JsonType.Reference,
          out ++ u.write_multiline_comment d indent ++ indent
            ++ remove_prefix r def_refstr.length ++ " obj;\n", indent)) ∧
    (∀ self out name_ indent r tag o i,
      Property.reference self = Except.ok r → starts_with r def_refstr = false →
      Property.type self = Except.ok "object" →
      Property.Print u self out name_ indent = Except.ok (tag, o, i) →
      ∃ d props segs, Property.description self = Except.ok d ∧
        Property.properties self = Except.ok props ∧
        tag = JsonType.Object ∧ i = indent ∧
        o = out ++ u.write_multiline_comment d indent ++ indent ++ "struct "
              ++ u.sanitize name_ ++ " \x7b\n" ++ segs.foldr (fun s acc => s ++ acc) ""
              ++ indent ++ "\x7d;\n" ∧
        List.Forall₂ (fun (kv : String × Json) (seg : String) =>
          ∀ rc, Property.reference (OpenAPIObject.of_element kv.2) = Except.ok rc →
            starts_with rc def_refstr = true →
            ∃ dc, Property.description (OpenAPIObject.of_element kv.2) = Except.ok dc ∧
              seg = u.write_multiline_comment dc (push_back indent '\t')
                ++ push_back indent '\t' ++ remove_prefix rc def_refstr.length ++ " obj;\n")
          props.fields segs) ∧
    (∀ self out name_ indent r props pre k1 c1 mid k2 c2 post r1 r2 tag o i,
      Property.reference self = Except.ok r → starts_with r def_refstr = false →
      Property.type self = Except.ok "object" →
      Property.properties self = Except.ok props →
      props.fields = pre ++ (k1, c1) :: (mid ++ (k2, c2) :: post) →
      Property.reference (OpenAPIObject.of_element c1) = Except.ok r1 →
      starts_with r1 def_refstr = true →
      Property.reference (OpenAPIObject.of_element c2) = Except.ok r2 →
      starts_with r2 def_refstr = true →
      Property.Print u self out name_ indent = Except.ok (tag, o, i) →
      ∃ d d1 d2 a b c, Property.description self = Except.ok d ∧
        Property.description (OpenAPIObject.of_element c1) = Except.ok d1 ∧
        Property.description (OpenAPIObject.of_element c2) = Except.ok d2 ∧
        o = out ++ u.write_multiline_comment d indent ++ indent ++ "struct "
              ++ u.sanitize name_ ++ " \x7b\n" ++ a
              ++ u.write_multiline_comment d1 (push_back indent '\t')
              ++ push_back indent '\t' ++ remove_prefix r1 def_refstr.length ++ " obj;\n" ++ b
              ++ u.write_multiline_comment d2 (push_back indent '\t')
              ++ push_back indent '\t' ++ remove_prefix r2 def_refstr.length ++ " obj;\n" ++ c
              ++ indent ++ "\x7d;\n") ∧
    (∀ j, tidy j = true → ∀ out name_ indent,
      ∃ tag o, Property.Print u (OpenAPIObject.of_element j) out name_ indent
        = Except.ok (tag, o, indent)) ∧
    Property.Print sample_util (OpenAPIObject.of_element two_references_node) "" "Owner" ""
      = Except.ok (JsonType.Object, "struct Owner \x7b\n\tPet obj;\n\tTag obj;\n\x7d;\n", "") ∧
    Property.Print sample_util (OpenAPIObject.of_element spaced_references_node) "" "Owner" ""
      = Except.ok (JsonType.Object,
          "struct Owner \x7b\n\tPet obj;\n\tstd::string name;\n\tTag obj;\n\x7d;\n", "") := by
  refine ⟨?_, ?_, ?_, ?_, ?_, two_references_node_print, spaced_references_node_print⟩
  · intro self out indent r n1 n2 hr hpre
    cases hd : Property.description self with
    | error f =>
      rw [Print_description_error u self out n1 indent f hd,
        Print_description_error u self out n2 indent f hd]
    | ok d =>
      rw [Print_reference u self out n1 indent d r hd hr hpre,
        Print_reference u self out n2 indent d r hd hr hpre]
  · intro self out indent r d name_ hr hpre hd
    exact Print_reference u self out name_ indent d r hd hr hpre
  · intro self out name_ indent r tag o i hr hnr ht h
    exact Print_object_segments u self out name_ indent r tag o i hr hnr ht h
  · intro self out name_ indent r props pre k1 c1 mid k2 c2 post r1 r2 tag o i
      hr hnr ht hp hf hr1 hp1 hr2 hp2 h
    obtain ⟨d, props1, segs, hd, hprops, _, _, ho, hall⟩ :=
      Print_object_segments u self out name_ indent r tag o i hr hnr ht h
    rw [hp] at hprops
    injection hprops with hprops
    subst hprops
    rw [hf] at hall
    obtain ⟨s1, sx, s2, hs, hx, hrest⟩ := forall₂_split _ pre (k1, c1) _ segs hall
    obtain ⟨t1, sy, t2, hs2, hy, _⟩ := forall₂_split _ mid (k2, c2) _ s2 hrest
    obtain ⟨d1, hd1, hsx⟩ := hx r1 hr1 hp1
    obtain ⟨d2, hd2, hsy⟩ := hy r2 hr2 hp2
    refine ⟨d, d1, d2, s1.foldr (fun s acc => s ++ acc) "",
      t1.foldr (fun s acc => s ++ acc) "", t2.foldr (fun s acc => s ++ acc) "",
      hd, hd1, hd2, ?_⟩
    rw [ho, hs, hs2, hsx, hsy]
    simp only [foldr_append_strings, List.foldr_cons, String.append_assoc]
  · intro j ht out name_ indent
    obtain ⟨⟨tag, o, i⟩, h⟩ := (Print_total u).1 _ j true rfl ht out name_ indent
    have hi := (Print_indent u).1 _ _ _ _ _ _ _ h
    subst hi
    exact ⟨tag, o, h⟩

/-- C24 (amended) on `pet_reference_node`: under the names `pet` and
`owner` the text is the same line `Pet obj;`; and on
`spaced_references_node`, whose two references stand first and third among
the properties: the struct `Owner` holds the two lines `Pet obj;` and
`Tag obj;`. -/
theorem C24_reference_ignores_name_witness :
    Property.Print sample_util (OpenAPIObject.of_element pet_reference_node) "" "pet" "\t"
      = Property.Print sample_util (OpenAPIObject.of_element pet_reference_node)
          "" "owner" "\t" ∧
    Property.Print sample_util (OpenAPIObject.of_element pet_reference_node) "" "owner" "\t"
      = Except.ok (JsonType.Reference, "\tPet obj;\n", "\t") ∧
    (∃ d d1 d2 a b c,
      Property.description (OpenAPIObject.of_element spaced_references_node) = Except.ok d ∧
      Property.description (OpenAPIObject.of_element
        (Json.object [("$ref", Json.string "#/definitions/Pet")])) = Except.ok d1 ∧
      Property.description (OpenAPIObject.of_element
        (Json.object [("$ref", Json.string "#/definitions/Tag")])) = Except.ok d2 ∧
      "struct Owner \x7b\n\tPet obj;\n\tstd::string name;\n\tTag obj;\n\x7d;\n" =
        "" ++ sample_util.write_multiline_comment d "" ++ "" ++ "struct "
          ++ sample_util.sanitize "Owner" ++ " \x7b\n" ++ a
          ++ sample_util.write_multiline_comment d1 (push_back "" '\t')
          ++ push_back "" '\t' ++ remove_prefix "#/definitions/Pet" def_refstr.length
          ++ " obj;\n" ++ b
          ++ sample_util.write_multiline_comment d2 (push_back "" '\t')
          ++ push_back "" '\t' ++ remove_prefix "#/definitions/Tag" def_refstr.length
          ++ " obj;\n" ++ c ++ "" ++ "\x7d;\n") :=
  ⟨(C24_reference_ignores_name sample_util).1 (OpenAPIObject.of_element pet_reference_node)
      "" "\t" "#/definitions/Pet" "pet" "owner" rfl rfl,
    (C24_reference_ignores_name sample_util).2.1 (OpenAPIObject.of_element pet_reference_node)
      "" "\t" "#/definitions/Pet" "a pet" "owner" rfl rfl rfl,
    (C24_reference_ignores_name sample_util).2.2.2.1
      (OpenAPIObject.of_element spaced_references_node) "" "Owner" "" ""
      (MapAdaptor.of_object [
        ("pet", Json.object [("$ref", Json.string "#/definitions/Pet")]),
        ("name", Json.object [("type", Json.string "string")]),
        ("tag", Json.object [("$ref", Json.string "#/definitions/Tag")])])
      [] "pet" (Json.object [("$ref", Json.string "#/definitions/Pet")])
      [("name", Json.object [("type", Json.string "string")])]
      "tag" (Json.object [("$ref", Json.string "#/definitions/Tag")]) []
      "#/definitions/Pet" "#/definitions/Tag" JsonType.Object
      "struct Owner \x7b\n\tPet obj;\n\tstd::string name;\n\tTag obj;\n\x7d;\n" ""
      rfl rfl rfl rfl rfl rfl rfl rfl rfl
      (C24_reference_ignores_name sample_util).2.2.2.2.2.2⟩

end openapi
